import Mathlib

/-!
# Webhook trigger engine of `gitlab_workflow_task.go`

A shallow embedding of
`pkg/microservice/aslan/core/workflow/service/webhook/gitlab_workflow_task.go`:
the two hook matchers, the dispatch loop `TriggerWorkflowByGitlabEvent`,
`InitDiffNote`, and the ephemeral-environment orchestration
`CreateEnvAndTaskByPR` with its two wait loops.

Conventions of the embedding.

* Go pointers to records that a function mutates (`*MainHookRepo`,
  `*WorkflowTaskArgs`) become a value passed in and the mutated value passed
  out.  Pointers are taken to be non-nil where the source dereferences them
  without a check.
* Go `error` values are strings; `nil` is `none`.
* Everything the file calls but does not define (helpers of the same package
  kept in other files, other packages, constants) is a field of `Deps`.  A
  collaborator is a function of its arguments; a collaborator that is polled
  in a loop also receives the number of the poll.
* Every function returns, next to its Go results, the list of collaborator
  calls it made, in order (`Call`).  Logging and `time.Sleep` are not
  recorded.
* The three unbounded `for` loops take a fuel argument that bounds the number
  of iterations; the result of a run is `none` when the fuel ran out while the
  loop was still running, and the calls made up to that point are kept.
-/

namespace Webhook

/-! ## Data model -/

/-- Go `error`, rendered as its message. -/
abbrev Error := String

/-- The two constants of `config.HookEventType` the file uses. -/
inductive HookEventType
  | HookEventPush
  | HookEventPr
deriving DecidableEq, Repr

/-- The fields of `commonmodels.MainHookRepo` (a trigger rule).  The file reads
`RepoOwner`, `RepoName`, `Branch`, `IsRegular` and `CodehostID`; `Events`
(the event-type mask) and `MatchFolders` (the path filter) are only read by
the helpers `EventConfigured` and `MatchChanges`. -/
structure MainHookRepo where
  RepoOwner : String
  RepoName : String
  Branch : String
  IsRegular : Bool
  CodehostID : Int
  Events : List HookEventType
  MatchFolders : List String
deriving DecidableEq, Repr

/-- The field `Project` of `gitlab.PushEvent`. -/
structure PushProject where
  PathWithNamespace : String
deriving DecidableEq, Repr

/-- The fields of `gitlab.PushEvent` the file reads. -/
structure PushEvent where
  Project : PushProject
  Ref : String
  ProjectID : Int
  Before : String
  After : String
deriving DecidableEq, Repr

/-- The field `ObjectAttributes.Target` of `gitlab.MergeEvent`. -/
structure MergeTarget where
  PathWithNamespace : String
deriving DecidableEq, Repr

/-- The field `ObjectAttributes.LastCommit` of `gitlab.MergeEvent`. -/
structure LastCommit where
  ID : String
deriving DecidableEq, Repr

/-- The fields of `gitlab.MergeEvent.ObjectAttributes` the file reads. -/
structure MergeAttributes where
  Target : MergeTarget
  TargetBranch : String
  State : String
  IID : Int
  LastCommit : LastCommit
deriving DecidableEq, Repr

/-- The type `gitlab.MergeEvent`. -/
structure MergeEvent where
  ObjectAttributes : MergeAttributes
deriving DecidableEq, Repr

/-- The `event interface{}` argument of the dispatch: a push event, a merge
event, or a value of any other type. -/
inductive Event
  | push (ev : PushEvent)
  | merge (ev : MergeEvent)
  | other
deriving DecidableEq, Repr

/-- The result of `codehost.GetCodehostDetail`. -/
structure Detail where
  Address : String
  OauthToken : String
deriving DecidableEq, Repr

/-- The client returned by `gitlabtool.NewClient`. -/
structure Client where
  Address : String
  OauthToken : String
deriving DecidableEq, Repr

/-- One entry of the result of `client.Compare`. -/
structure Diff where
  NewPath : String
  OldPath : String
deriving DecidableEq, Repr

/-- The fields of `commonmodels.WorkflowTaskArgs` the file reads or writes. -/
structure WorkflowTaskArgs where
  ProductTmplName : String
  Namespace : String
  BaseNamespace : String
  EnvRecyclePolicy : String
  NotificationID : String
  MergeRequestID : String
  CommitID : String
  Source : String
  CodehostID : Int
  RepoOwner : String
  RepoName : String
deriving DecidableEq, Repr

/-- The type `types.Repository`, as filled in by `UpdateTaskArgs`. -/
structure Repository where
  CodehostID : Int
  RepoName : String
  RepoOwner : String
  Branch : String
  PR : Int
deriving DecidableEq, Repr

/-- One element of `workflow.HookCtl.Items`; `WorkflowArgs` may be nil. -/
structure WorkflowHook where
  MainRepo : MainHookRepo
  WorkflowArgs : Option WorkflowTaskArgs
deriving DecidableEq, Repr

/-- The type of `workflow.HookCtl`. -/
structure WorkflowHookCtrl where
  Enabled : Bool
  Items : List WorkflowHook
deriving DecidableEq, Repr

/-- The fields of `commonmodels.Workflow` the file reads; `HookCtl` may be
nil. -/
structure Workflow where
  Name : String
  ProductTmplName : String
  HookCtl : Option WorkflowHookCtrl
deriving DecidableEq, Repr

/-- The field `Render` of `commonmodels.Product`. -/
structure RenderInfo where
  Name : String
  Revision : Int
deriving DecidableEq, Repr

/-- The fields of `commonmodels.Product` the file reads or writes.  `ID` is
the record identity that `util.Clear` resets, `Vars` the render variables. -/
structure Product where
  ID : String
  ProductName : String
  EnvName : String
  Namespace : String
  UpdateBy : String
  Render : Option RenderInfo
  Vars : List String
deriving DecidableEq, Repr

/-- The result of `RenderSetColl.Find`. -/
structure RenderSet where
  KVs : List String
deriving DecidableEq, Repr

/-- The notification returned by `SendInitWebhookComment`; `ID` stands for
`notification.ID.Hex()`. -/
structure Notification where
  ID : String
deriving DecidableEq, Repr

/-- The type `AutoCancelOpt`, as filled in by the dispatch. -/
structure AutoCancelOpt where
  MergeRequestID : String
  CommitID : String
  TaskType : String
  MainRepo : MainHookRepo
  WorkflowArgs : WorkflowTaskArgs
deriving DecidableEq, Repr

/-- The fields of the response of `workflowservice.CreateWorkflowTask` the
file reads. -/
structure CreateTaskResp where
  TaskID : Int
  PipelineName : String
deriving DecidableEq, Repr

/-- The type `commonmodels.PrTaskInfo`, as filled in by the wait loops. -/
structure PrTaskInfo where
  ProductName : String
  EnvStatus : String
  EnvName : String
  EnvRecyclePolicy : String
deriving DecidableEq, Repr

/-- The field `Repo` of `commonmodels.DiffNote`. -/
structure RepoInfo where
  CodehostID : Int
  Source : String
  ProjectID : String
  Address : String
  OauthToken : String
deriving DecidableEq, Repr

/-- The type `commonmodels.DiffNote`: the stored record of one discussion
thread.  The record identity `ObjectID` is not a field here: it is the
position of the record in the collection (see `DiffNoteColl`). -/
structure DiffNote where
  Repo : RepoInfo
  MergeRequestID : Int
  CommitID : String
  Body : String
  Resolved : Bool
  DiscussionID : String
  NoteID : Int
deriving DecidableEq, Repr

/-- The type `commonrepo.DiffNoteFindOpt`. -/
structure DiffNoteFindOpt where
  CodehostID : Int
  ProjectID : String
  MergeRequestID : Int
deriving DecidableEq, Repr

/-- The fields of `gitlab.UpdateMergeRequestDiscussionNoteOptions` the file
sets; an unset field is nil. -/
structure UpdateNoteOptions where
  Body : Option String
  Resolved : Option Bool
deriving DecidableEq, Repr

/-- The fields of the `gitlab.Discussion` returned by
`CreateMergeRequestDiscussion` the file reads: its id and the ids of its
notes. -/
structure Discussion where
  ID : String
  Notes : List Int
deriving DecidableEq, Repr

/-! ## Collaborator calls -/

/-- One call to a collaborator, with the arguments the file passes.
`diffFunc` is the call of a merge matcher to its `diffFunc` field and
`CreateEnvAndTaskByPR` marks the entry into that function; every other
constructor is a function outside the file. -/
inductive Call
  | ListWorkflows
  | GetCodehostDetail (codehostID : Int)
  | NewClient (address token : String)
  | Compare (projectID : Int) (before after : String)
  | diffFunc (ev : MergeEvent) (codehostID : Int)
  | ListChangedFiles (ev : MergeEvent)
  | ProductFind (name envName : String)
  | AutoCancelTask (opt : AutoCancelOpt)
  | SendInitWebhookComment (mainRepo : MainHookRepo) (iid : Int) (baseURI : String)
  | DiffNoteFind (opt : DiffNoteFindOpt)
  | UpdateMergeRequestDiscussionNote (projectID : String) (mergeRequestID : Int)
      (discussionID : String) (noteID : Int) (opt : UpdateNoteOptions)
  | DiffNoteUpdate (id : Nat) (commitID body : String) (resolved : Bool)
  | CreateMergeRequestDiscussion (projectID : String) (mergeRequestID : Int) (body : String)
  | DiffNoteCreate (diffNote : DiffNote)
  | CreateWorkflowTask (args : WorkflowTaskArgs) (creator : String) (userID : Int)
  | SendErrWebhookComment (mainRepo : MainHookRepo) (workflow : Workflow) (err : Error)
      (prID : Int) (baseURI : String)
  | CreateEnvAndTaskByPR (args : WorkflowTaskArgs) (prID : Int) (requestID : String)
  | RenderSetFind (name : String) (revision : Int)
  | CreateProduct (user requestID : String) (product : Product)
  | GetProduct (user envName productName : String)
  | UpdateEnvAndTaskWebhookComment (args : WorkflowTaskArgs) (info : PrTaskInfo)
  | TaskFind (taskID : Int) (pipelineName : String)
  | DeleteProduct (user envName productName requestID : String)
deriving DecidableEq, Repr

/-- The call retrieves the changed-file set of an event: `client.Compare` for
a push, the `diffFunc` of a merge matcher (and the `ListChangedFiles` behind
it) for a merge request. -/
def Call.isChangedFileRetrieval : Call → Bool
  | .Compare _ _ _ => true
  | .diffFunc _ _ => true
  | .ListChangedFiles _ => true
  | _ => false

/-- The call is `workflowservice.CreateWorkflowTask`. -/
def Call.isCreateWorkflowTask : Call → Bool
  | .CreateWorkflowTask _ _ _ => true
  | _ => false

/-- The call is the entry into `CreateEnvAndTaskByPR`. -/
def Call.isCreateEnvAndTaskByPR : Call → Bool
  | .CreateEnvAndTaskByPR _ _ _ => true
  | _ => false

/-- The call is `commonservice.DeleteProduct`. -/
def Call.isDeleteProduct : Call → Bool
  | .DeleteProduct _ _ _ _ => true
  | _ => false

/-- The call is one of the three made by the wait loops: an environment
lookup, a task lookup, or an update of the status comment. -/
def Call.isPoll : Call → Bool
  | .GetProduct _ _ _ => true
  | .TaskFind _ _ => true
  | .UpdateEnvAndTaskWebhookComment _ _ => true
  | _ => false

/-- The call does not create an environment of another name than `name`: it
is no `CreateProduct`, or the product it creates has the environment name
`name`. -/
def Call.createsEnvNamed (name : String) : Call → Bool
  | .CreateProduct _ _ product => decide (product.EnvName = name)
  | _ => true

/-- The call talks to GitLab about a discussion: it creates one or updates a
note of one. -/
def Call.isGitlabDiscussionCall : Call → Bool
  | .UpdateMergeRequestDiscussionNote _ _ _ _ _ => true
  | .CreateMergeRequestDiscussion _ _ _ => true
  | _ => false

/-- The call creates a discussion on GitLab. -/
def Call.isCreateDiscussion : Call → Bool
  | .CreateMergeRequestDiscussion _ _ _ => true
  | _ => false

/-- The call writes to the `DiffNote` collection. -/
def Call.isDiffNoteWrite : Call → Bool
  | .DiffNoteUpdate _ _ _ _ => true
  | .DiffNoteCreate _ => true
  | _ => false

/-! ## Collaborators -/

/-- Everything the file uses and does not define.

Helpers of the same package: `EventConfigured`, `getBranchFromRef`,
`MatchChanges`, `AutoCancelTask`, `workflowArgsFactory.Update`.

Go standard library: `regexpCompile pattern` is `regexp.Compile` followed by
the `MatchString` method of the compiled expression, `none` when the pattern
does not compile.

Constants: the four terminal values of `config.Status`, the two recycle
policies, the three environment statuses that end the creation wait, and the
identities passed to the services.

Store faults: `DiffNoteFindErr`, `DiffNoteUpdateErr` and `DiffNoteCreateErr`
are the errors with which an operation on the `DiffNote` collection fails for
reasons of its own (`none`: no fault).

Polled collaborators: `GetProduct` and `TaskFind` take the number of earlier
calls made by the same run of `CreateEnvAndTaskByPR`; `createTimeout i` and
`deleteTimeout i` are the values of the local variable `timeout` of
`WaitEnvCreate` and of `WaitEnvDelete` read at the start of iteration `i`
(the variable is set by a timer goroutine). -/
structure Deps where
  EventConfigured : MainHookRepo → HookEventType → Bool
  getBranchFromRef : String → String
  MatchChanges : MainHookRepo → List String → Bool
  regexpCompile : String → Option (String → Bool)
  GetCodehostDetail : Int → Except Error Detail
  NewClient : String → String → Except Error Client
  Compare : Client → Int → String → String → Except Error (List Diff)
  ListChangedFiles : Client → MergeEvent → Except Error (List String)
  ErrCodehostListProjects : String → Error
  ListWorkflows : Except Error (List Workflow)
  ProductFind : String → String → Except Error Product
  AutoCancelTask : AutoCancelOpt → Option Error
  SendInitWebhookComment : MainHookRepo → Int → String → Option Notification
  SendErrWebhookComment : MainHookRepo → Workflow → Error → Int → String → Option Error
  factoryUpdate : Workflow → String → Product → WorkflowTaskArgs → Repository → WorkflowTaskArgs
  CreateWorkflowTask : WorkflowTaskArgs → String → Int → Except Error CreateTaskResp
  UpdateMergeRequestDiscussionNote :
    String → Int → String → Int → UpdateNoteOptions → Option Error
  CreateMergeRequestDiscussion : String → Int → String → Except Error Discussion
  RenderSetFind : String → Int → Option RenderSet
  GetRandomNumString : Nat → String
  GetRandomString : Nat → String
  GetProductEnvNamespace : String → String → String → String
  CreateProduct : String → String → Product → Option Error
  ServiceStartTimeout : Int
  GetProduct : String → String → String → Nat → Except Error String
  UpdateEnvAndTaskWebhookComment : WorkflowTaskArgs → PrTaskInfo → Option Error
  TaskFind : Int → String → Nat → Except Error String
  DeleteProduct : String → String → String → String → Option Error
  DiffNoteFindErr : DiffNoteFindOpt → Option Error
  DiffNoteUpdateErr : Nat → String → String → Bool → Option Error
  DiffNoteCreateErr : DiffNote → Option Error
  createTimeout : Nat → Bool
  deleteTimeout : Nat → Bool
  StatusFailed : String
  StatusPassed : String
  StatusTimeout : String
  StatusCancelled : String
  EnvRecyclePolicyAlways : String
  EnvRecyclePolicyTaskStatus : String
  PodRunning : String
  PodUnstable : String
  ClusterUnknown : String
  SystemUser : String
  WebhookTaskCreator : String
  AnonymousUserID : Int
  SourceFromGitlab : String
  WorkflowType : String

/-- Go `regexp.MatchString(pattern, s)`: compile the pattern; on a compile
error return `(false, err)`, else the match result and a nil error. -/
def regexpMatchString (d : Deps) (pattern s : String) : Bool × Option Error :=
  match d.regexpCompile pattern with
  | none => (false, some ("error parsing regexp: " ++ pattern))
  | some re => (re s, none)

/-! ## Hook matchers -/

/-- The results of a `Match` call: the two Go results, the rule behind the
`hookRepo` pointer as the call leaves it, and the collaborator calls made. -/
structure MatchResult where
  matched : Bool
  err : Option Error
  hookRepo : MainHookRepo
  calls : List Call
deriving DecidableEq, Repr

/-- The type `gitlabMergeRequestDiffFunc`: the calls the function makes and
its two Go results. -/
abbrev gitlabMergeRequestDiffFunc := MergeEvent → Int → List Call × Except Error (List String)

/-- The struct `gitlabMergeEventMatcher` (without its logger). -/
structure gitlabMergeEventMatcher where
  diffFunc : gitlabMergeRequestDiffFunc
  workflow : Workflow
  event : MergeEvent

/-- The struct `gitlabPushEventMatcher` (without its logger). -/
structure gitlabPushEventMatcher where
  workflow : Workflow
  event : PushEvent

/-- The method `(*gitlabMergeEventMatcher).Match`, lines 57-87. -/
def gitlabMergeEventMatcher.Match (d : Deps) (gmem : gitlabMergeEventMatcher)
    (hookRepo : MainHookRepo) : MatchResult :=
  let ev := gmem.event
  if hookRepo.RepoOwner ++ "/" ++ hookRepo.RepoName = ev.ObjectAttributes.Target.PathWithNamespace then
    if !d.EventConfigured hookRepo HookEventType.HookEventPr then
      ⟨false, none, hookRepo, []⟩
    else
      let isRegular := hookRepo.IsRegular
      if !isRegular && hookRepo.Branch != ev.ObjectAttributes.TargetBranch then
        ⟨false, none, hookRepo, []⟩
      else if isRegular &&
          !(regexpMatchString d hookRepo.Branch ev.ObjectAttributes.TargetBranch).1 then
        ⟨false, none, hookRepo, []⟩
      else
        let hookRepo := { hookRepo with Branch := ev.ObjectAttributes.TargetBranch }
        if ev.ObjectAttributes.State = "opened" then
          match gmem.diffFunc ev hookRepo.CodehostID with
          | (cs, .error err) =>
            ⟨false, some err, hookRepo, Call.diffFunc ev hookRepo.CodehostID :: cs⟩
          | (cs, .ok changedFiles) =>
            ⟨d.MatchChanges hookRepo changedFiles, none, hookRepo,
              Call.diffFunc ev hookRepo.CodehostID :: cs⟩
        else
          ⟨false, none, hookRepo, []⟩
  else
    ⟨false, none, hookRepo, []⟩

/-- The loop of lines 173-176: the new and the old path of every diff. -/
def changedFilesOfDiffs : List Diff → List String
  | [] => []
  | diff :: rest => diff.NewPath :: diff.OldPath :: changedFilesOfDiffs rest

/-- Lines 154-176 of the push matcher: the retrieval of the changed files of
a push, with the calls made. -/
def pushChangedFiles (d : Deps) (ev : PushEvent) (codehostID : Int) :
    List Call × Except Error (List String) :=
  match d.GetCodehostDetail codehostID with
  | .error err => ([Call.GetCodehostDetail codehostID], .error err)
  | .ok detail =>
    match d.NewClient detail.Address detail.OauthToken with
    | .error err =>
      ([Call.GetCodehostDetail codehostID, Call.NewClient detail.Address detail.OauthToken],
        .error err)
    | .ok client =>
      match d.Compare client ev.ProjectID ev.Before ev.After with
      | .error err =>
        ([Call.GetCodehostDetail codehostID, Call.NewClient detail.Address detail.OauthToken,
          Call.Compare ev.ProjectID ev.Before ev.After], .error err)
      | .ok diffs =>
        ([Call.GetCodehostDetail codehostID, Call.NewClient detail.Address detail.OauthToken,
          Call.Compare ev.ProjectID ev.Before ev.After], .ok (changedFilesOfDiffs diffs))

/-- The method `(*gitlabPushEventMatcher).Match`, lines 136-182. -/
def gitlabPushEventMatcher.Match (d : Deps) (gpem : gitlabPushEventMatcher)
    (hookRepo : MainHookRepo) : MatchResult :=
  let ev := gpem.event
  if hookRepo.RepoOwner ++ "/" ++ hookRepo.RepoName = ev.Project.PathWithNamespace then
    if !d.EventConfigured hookRepo HookEventType.HookEventPush then
      ⟨false, none, hookRepo, []⟩
    else
      let isRegular := hookRepo.IsRegular
      if !isRegular && hookRepo.Branch != d.getBranchFromRef ev.Ref then
        ⟨false, none, hookRepo, []⟩
      else if isRegular &&
          !(regexpMatchString d hookRepo.Branch (d.getBranchFromRef ev.Ref)).1 then
        ⟨false, none, hookRepo, []⟩
      else
        let hookRepo := { hookRepo with Branch := d.getBranchFromRef ev.Ref }
        match pushChangedFiles d ev hookRepo.CodehostID with
        | (cs, .error err) => ⟨false, some err, hookRepo, cs⟩
        | (cs, .ok changedFiles) => ⟨d.MatchChanges hookRepo changedFiles, none, hookRepo, cs⟩
  else
    ⟨false, none, hookRepo, []⟩

/-- The interface `gitEventMatcher`, with its two implementations. -/
inductive gitEventMatcher
  | push (gpem : gitlabPushEventMatcher)
  | merge (gmem : gitlabMergeEventMatcher)

/-- The method `Match` of the interface `gitEventMatcher`. -/
def gitEventMatcher.Match (d : Deps) : gitEventMatcher → MainHookRepo → MatchResult
  | .push gpem, hookRepo => gpem.Match d hookRepo
  | .merge gmem, hookRepo => gmem.Match d hookRepo

/-- The two methods `UpdateTaskArgs`, lines 89-106 and 184-200.  The value
returned is the record behind the `args` pointer after `factory.Update`,
which updates that record and returns the same pointer. -/
def gitEventMatcher.UpdateTaskArgs (d : Deps) (matcher : gitEventMatcher) (product : Product)
    (args : WorkflowTaskArgs) (hookRepo : MainHookRepo) (requestID : String) : WorkflowTaskArgs :=
  match matcher with
  | .merge gmem =>
    d.factoryUpdate gmem.workflow requestID product args
      { CodehostID := hookRepo.CodehostID, RepoName := hookRepo.RepoName,
        RepoOwner := hookRepo.RepoOwner, Branch := hookRepo.Branch,
        PR := gmem.event.ObjectAttributes.IID }
  | .push gpem =>
    d.factoryUpdate gpem.workflow requestID product args
      { CodehostID := hookRepo.CodehostID, RepoName := hookRepo.RepoName,
        RepoOwner := hookRepo.RepoOwner, Branch := hookRepo.Branch, PR := 0 }

/-- The function `createGitlabEventMatcher`, lines 108-128; `none` is the nil
matcher returned for an event of another type. -/
def createGitlabEventMatcher (event : Event) (diffSrv : gitlabMergeRequestDiffFunc)
    (workflow : Workflow) : Option gitEventMatcher :=
  match event with
  | .push evt => some (.push { workflow := workflow, event := evt })
  | .merge evt => some (.merge { diffFunc := diffSrv, event := evt, workflow := workflow })
  | .other => none

/-- The function `findChangedFilesOfMergeRequest`, lines 326-339. -/
def findChangedFilesOfMergeRequest (d : Deps) (event : MergeEvent) (codehostID : Int) :
    List Call × Except Error (List String) :=
  match d.GetCodehostDetail codehostID with
  | .error err =>
    ([Call.GetCodehostDetail codehostID],
      .error ("failed to find codehost " ++ toString codehostID ++ ": " ++ err))
  | .ok detail =>
    match d.NewClient detail.Address detail.OauthToken with
    | .error err =>
      ([Call.GetCodehostDetail codehostID, Call.NewClient detail.Address detail.OauthToken],
        .error (d.ErrCodehostListProjects err))
    | .ok client =>
      ([Call.GetCodehostDetail codehostID, Call.NewClient detail.Address detail.OauthToken,
        Call.ListChangedFiles event], d.ListChangedFiles client event)

/-! ## The discussion-thread store and `InitDiffNote` -/

/-- The `DiffNote` collection behind `commonrepo.NewDiffNoteColl()`.  The
identity of a record (`ObjectID`) is its position in the list; records are
never removed. -/
abbrev DiffNoteColl := List DiffNote

/-- The record has the key of the lookup: codehost, project and merge-request
id. -/
def DiffNoteFindOpt.selects (opt : DiffNoteFindOpt) (dn : DiffNote) : Bool :=
  decide (dn.Repo.CodehostID = opt.CodehostID) && decide (dn.Repo.ProjectID = opt.ProjectID) &&
    decide (dn.MergeRequestID = opt.MergeRequestID)

/-- The first record from position `i` on that the lookup selects, with its
position. -/
def DiffNoteColl.findFrom (opt : DiffNoteFindOpt) : List DiffNote → Nat → Option (Nat × DiffNote)
  | [], _ => none
  | dn :: rest, i => if opt.selects dn then some (i, dn) else DiffNoteColl.findFrom opt rest (i + 1)

/-- Modelled from the spec: `DiffNoteColl.Find`, whose code is not in the
sources.  "find ... a DiscussionThread record keyed by (codehost, repository,
merge-request id)": the record with that key and its identity, an error when
there is none or when the store fails. -/
def DiffNoteColl.Find (d : Deps) (coll : DiffNoteColl) (opt : DiffNoteFindOpt) :
    Except Error (Nat × DiffNote) :=
  match d.DiffNoteFindErr opt with
  | some err => .error err
  | none =>
    match DiffNoteColl.findFrom opt coll 0 with
    | some found => .ok found
    | none => .error "no documents in result"

/-- The collection with `f` applied to the record at position `id`; unchanged
when there is no such record. -/
def DiffNoteColl.modifyAt (f : DiffNote → DiffNote) : List DiffNote → Nat → List DiffNote
  | [], _ => []
  | dn :: rest, 0 => f dn :: rest
  | dn :: rest, id + 1 => dn :: DiffNoteColl.modifyAt f rest id

/-- Modelled from the spec: `DiffNoteColl.Update`, whose code is not in the
sources.  "persist the new commit id/body/resolved flag locally": the record
with identity `id` gets the three values, every other field and record stays. -/
def DiffNoteColl.Update (d : Deps) (coll : DiffNoteColl) (id : Nat) (commitID body : String)
    (resolved : Bool) : Option Error × DiffNoteColl :=
  match d.DiffNoteUpdateErr id commitID body resolved with
  | some err => (some err, coll)
  | none =>
    (none,
      DiffNoteColl.modifyAt
        (fun dn => { dn with CommitID := commitID, Body := body, Resolved := resolved }) coll id)

/-- Modelled from the spec: `DiffNoteColl.Create`, whose code is not in the
sources.  "create ... a new local record": the record is added to the
collection. -/
def DiffNoteColl.Create (d : Deps) (coll : DiffNoteColl) (diffNote : DiffNote) :
    Option Error × DiffNoteColl :=
  match d.DiffNoteCreateErr diffNote with
  | some err => (some err, coll)
  | none => (none, coll ++ [diffNote])

/-- The results of `InitDiffNote`: the Go result, the collection as the call
leaves it, and the calls made. -/
structure DiffNoteResult where
  err : Option Error
  coll : DiffNoteColl
  calls : List Call
deriving DecidableEq, Repr

/-- The function `InitDiffNote`, lines 342-434.  `gitlab.NewOAuthClient` only
builds a client value and is not recorded. -/
def InitDiffNote (d : Deps) (ev : MergeEvent) (mainRepo : MainHookRepo) (coll : DiffNoteColl) :
    DiffNoteResult :=
  let commitID := ev.ObjectAttributes.LastCommit.ID
  let body := "KodeRover CI ?????????..."
  match d.GetCodehostDetail mainRepo.CodehostID with
  | .error err =>
    ⟨some ("failed to find codehost " ++ toString mainRepo.CodehostID ++ ": " ++ err), coll,
      [Call.GetCodehostDetail mainRepo.CodehostID]⟩
  | .ok detail =>
    let opt : DiffNoteFindOpt :=
      { CodehostID := mainRepo.CodehostID,
        ProjectID := mainRepo.RepoOwner ++ "/" ++ mainRepo.RepoName,
        MergeRequestID := ev.ObjectAttributes.IID }
    let cs := [Call.GetCodehostDetail mainRepo.CodehostID, Call.DiffNoteFind opt]
    match DiffNoteColl.Find d coll opt with
    | .ok (id, dn) =>
      if dn.CommitID = commitID then
        ⟨none, coll, cs⟩
      else
        let noteBodyOpt : UpdateNoteOptions := { Body := some body, Resolved := none }
        let c1 := Call.UpdateMergeRequestDiscussionNote dn.Repo.ProjectID dn.MergeRequestID
          dn.DiscussionID dn.NoteID noteBodyOpt
        match d.UpdateMergeRequestDiscussionNote dn.Repo.ProjectID dn.MergeRequestID
            dn.DiscussionID dn.NoteID noteBodyOpt with
        | some err => ⟨some err, coll, cs ++ [c1]⟩
        | none =>
          let resolved := false
          let resolveOpt : UpdateNoteOptions := { Body := none, Resolved := some resolved }
          let c2 := Call.UpdateMergeRequestDiscussionNote dn.Repo.ProjectID dn.MergeRequestID
            dn.DiscussionID dn.NoteID resolveOpt
          match d.UpdateMergeRequestDiscussionNote dn.Repo.ProjectID dn.MergeRequestID
              dn.DiscussionID dn.NoteID resolveOpt with
          | some err => ⟨some err, coll, cs ++ [c1, c2]⟩
          | none =>
            match DiffNoteColl.Update d coll id commitID body resolved with
            | (some err, coll1) =>
              ⟨some err, coll1, cs ++ [c1, c2, Call.DiffNoteUpdate id commitID body resolved]⟩
            | (none, coll1) =>
              ⟨none, coll1, cs ++ [c1, c2, Call.DiffNoteUpdate id commitID body resolved]⟩
    | .error _ =>
      let diffNote : DiffNote :=
        { Repo :=
            { CodehostID := mainRepo.CodehostID, Source := "gitlab",
              ProjectID := mainRepo.RepoOwner ++ "/" ++ mainRepo.RepoName,
              Address := detail.Address, OauthToken := detail.OauthToken },
          MergeRequestID := ev.ObjectAttributes.IID,
          CommitID := commitID,
          Body := body,
          Resolved := false,
          DiscussionID := "",
          NoteID := 0 }
      let c1 := Call.CreateMergeRequestDiscussion diffNote.Repo.ProjectID diffNote.MergeRequestID
        diffNote.Body
      match d.CreateMergeRequestDiscussion diffNote.Repo.ProjectID diffNote.MergeRequestID
          diffNote.Body with
      | .error err => ⟨some err, coll, cs ++ [c1]⟩
      | .ok discussion =>
        let diffNote := { diffNote with DiscussionID := discussion.ID }
        let diffNote :=
          match discussion.Notes with
          | noteID :: _ => { diffNote with NoteID := noteID }
          | [] => diffNote
        match DiffNoteColl.Create d coll diffNote with
        | (some err, coll1) => ⟨some err, coll1, cs ++ [c1, Call.DiffNoteCreate diffNote]⟩
        | (none, coll1) => ⟨none, coll1, cs ++ [c1, Call.DiffNoteCreate diffNote]⟩


/-! ## Ephemeral environments: `CreateEnvAndTaskByPR` and its wait loops -/

/-- A run of a function that contains an unbounded loop: the calls made, and
the Go result, or `none` when the fuel ran out while a loop was still
running. -/
structure Run (α : Type) where
  calls : List Call
  result : Option α

/-- The run preceded by the calls `cs`. -/
def Run.after {α : Type} (cs : List Call) (r : Run α) : Run α :=
  { calls := cs ++ r.calls, result := r.result }

/-- The test of line 540: the environment status ends the creation wait. -/
def envReady (d : Deps) (status : String) : Bool :=
  decide (status = d.PodRunning) || decide (status = d.PodUnstable) ||
    decide (status = d.ClusterUnknown)

/-- The error of line 520. -/
def waitEnvCreateTimeoutError (timeoutSeconds : Int) (envName : String)
    (workflowArgs : WorkflowTaskArgs) : Error :=
  "WaitEnvCreate " ++ workflowArgs.ProductTmplName ++ " wait create envName:" ++ envName ++
    " timeout in " ++ toString timeoutSeconds ++ " seconds"

/-- The `for` loop of `WaitEnvCreate`, lines 518-545, from iteration `i` on
with `fuel` iterations left.  The result is the Go error and the number of
`GetProduct` calls made so far. -/
def WaitEnvCreateLoop (d : Deps) (timeoutSeconds : Int) (envName : String)
    (workflowArgs : WorkflowTaskArgs) : Nat → Nat → Run (Option Error × Nat)
  | 0, _ => { calls := [], result := none }
  | fuel + 1, i =>
    if d.createTimeout i then
      { calls := [],
        result := some (some (waitEnvCreateTimeoutError timeoutSeconds envName workflowArgs), i) }
    else
      match d.GetProduct d.SystemUser envName workflowArgs.ProductTmplName i with
      | .error _ =>
        Run.after [Call.GetProduct d.SystemUser envName workflowArgs.ProductTmplName]
          (WaitEnvCreateLoop d timeoutSeconds envName workflowArgs fuel (i + 1))
      | .ok status =>
        let prTaskInfo : PrTaskInfo :=
          { ProductName := workflowArgs.ProductTmplName, EnvStatus := status, EnvName := envName,
            EnvRecyclePolicy := workflowArgs.EnvRecyclePolicy }
        let cs := [Call.GetProduct d.SystemUser envName workflowArgs.ProductTmplName,
          Call.UpdateEnvAndTaskWebhookComment workflowArgs prTaskInfo]
        if envReady d status then
          { calls := cs, result := some (none, i + 1) }
        else
          Run.after cs (WaitEnvCreateLoop d timeoutSeconds envName workflowArgs fuel (i + 1))

/-- The function `WaitEnvCreate`, lines 511-547. -/
def WaitEnvCreate (d : Deps) (fuel : Nat) (timeoutSeconds : Int) (envName : String)
    (workflowArgs : WorkflowTaskArgs) : Run (Option Error × Nat) :=
  WaitEnvCreateLoop d timeoutSeconds envName workflowArgs fuel 0

/-- The error of line 557. -/
def waitEnvDeleteTimeoutError (timeoutSeconds : Int) (envName : String)
    (workflowArgs : WorkflowTaskArgs) : Error :=
  "WaitEnvDelete " ++ workflowArgs.ProductTmplName ++ " wait delete envName:" ++ envName ++
    " timeout in " ++ toString timeoutSeconds ++ " seconds"

/-- The `for` loop of `WaitEnvDelete`, lines 555-579, from iteration `i` on;
`polls` is the number of `GetProduct` calls made before the loop. -/
def WaitEnvDeleteLoop (d : Deps) (timeoutSeconds : Int) (envName : String)
    (workflowArgs : WorkflowTaskArgs) (polls : Nat) : Nat → Nat → Run (Option Error)
  | 0, _ => { calls := [], result := none }
  | fuel + 1, i =>
    if d.deleteTimeout i then
      { calls := [],
        result := some (some (waitEnvDeleteTimeoutError timeoutSeconds envName workflowArgs)) }
    else
      let prTaskInfo : PrTaskInfo :=
        { ProductName := workflowArgs.ProductTmplName, EnvStatus := "", EnvName := envName,
          EnvRecyclePolicy := workflowArgs.EnvRecyclePolicy }
      match d.GetProduct d.SystemUser envName workflowArgs.ProductTmplName (polls + i) with
      | .error _ =>
        { calls := [Call.GetProduct d.SystemUser envName workflowArgs.ProductTmplName,
            Call.UpdateEnvAndTaskWebhookComment workflowArgs
              { prTaskInfo with EnvStatus := "Completed" }],
          result := some none }
      | .ok status =>
        Run.after [Call.GetProduct d.SystemUser envName workflowArgs.ProductTmplName,
            Call.UpdateEnvAndTaskWebhookComment workflowArgs { prTaskInfo with EnvStatus := status }]
          (WaitEnvDeleteLoop d timeoutSeconds envName workflowArgs polls fuel (i + 1))

/-- The function `WaitEnvDelete`, lines 549-581. -/
def WaitEnvDelete (d : Deps) (fuel : Nat) (timeoutSeconds : Int) (envName : String)
    (workflowArgs : WorkflowTaskArgs) (polls : Nat) : Run (Option Error) :=
  WaitEnvDeleteLoop d timeoutSeconds envName workflowArgs polls fuel 0

/-- The test of line 488: the task status is one of the four terminal
ones. -/
def taskTerminal (d : Deps) (status : String) : Bool :=
  decide (status = d.StatusFailed) || decide (status = d.StatusPassed) ||
    decide (status = d.StatusTimeout) || decide (status = d.StatusCancelled)

/-- The `for` loop of lines 480-494, from iteration `i` on: poll the task
until its status is terminal; the result is that status. -/
def pollTaskStatus (d : Deps) (taskResp : CreateTaskResp) : Nat → Nat → Run String
  | 0, _ => { calls := [], result := none }
  | fuel + 1, i =>
    match d.TaskFind taskResp.TaskID taskResp.PipelineName i with
    | .error _ =>
      Run.after [Call.TaskFind taskResp.TaskID taskResp.PipelineName]
        (pollTaskStatus d taskResp fuel (i + 1))
    | .ok status =>
      if taskTerminal d status then
        { calls := [Call.TaskFind taskResp.TaskID taskResp.PipelineName], result := some status }
      else
        Run.after [Call.TaskFind taskResp.TaskID taskResp.PipelineName]
          (pollTaskStatus d taskResp fuel (i + 1))

/-- The test of line 496: the environment is recycled. -/
def recycles (d : Deps) (workflowArgs : WorkflowTaskArgs) (taskStatus : String) : Bool :=
  decide (workflowArgs.EnvRecyclePolicy = d.EnvRecyclePolicyAlways) ||
    (decide (workflowArgs.EnvRecyclePolicy = d.EnvRecyclePolicyTaskStatus) &&
      decide (taskStatus = d.StatusPassed))

/-- Lines 496-508 of `CreateEnvAndTaskByPR`: delete the environment when the
policy asks for it and wait until it is gone. -/
def recycleEnv (d : Deps) (fuel : Nat) (timeoutSeconds : Int) (envName : String)
    (workflowArgs : WorkflowTaskArgs) (requestID taskStatus : String) (polls : Nat) :
    Run (Option Error) :=
  if recycles d workflowArgs taskStatus then
    let c := Call.DeleteProduct d.SystemUser envName workflowArgs.ProductTmplName requestID
    match d.DeleteProduct d.SystemUser envName workflowArgs.ProductTmplName requestID with
    | some err => { calls := [c], result := some (some err) }
    | none => Run.after [c] (WaitEnvDelete d fuel timeoutSeconds envName workflowArgs polls)
  else
    { calls := [], result := some none }

/-- The environment name of line 457, `fmt.Sprintf("%s-%d-%s%s", "pr", prID, num, str)`. -/
def prEnvName (prID : Int) (num str : String) : String :=
  "pr" ++ "-" ++ toString prID ++ "-" ++ num ++ str

/-- Lines 451-461 of `CreateEnvAndTaskByPR`: the product handed to
`CreateProduct`, made from the base product. -/
def cloneBaseProduct (d : Deps) (baseProduct : Product) (renderSet : Option RenderSet)
    (envName : String) (workflowArgs : WorkflowTaskArgs) : Product :=
  let baseProduct :=
    match baseProduct.Render, renderSet with
    | some _, some rs => { baseProduct with Vars := rs.KVs }
    | _, _ => baseProduct
  { baseProduct with
    ID := "",
    Namespace := d.GetProductEnvNamespace envName workflowArgs.ProductTmplName "",
    UpdateBy := d.SystemUser,
    EnvName := envName }

/-- The results of `CreateEnvAndTaskByPR`: the Go error and the record behind
the `workflowArgs` pointer as the call leaves it. -/
structure EnvTaskResult where
  err : Option Error
  workflowArgs : WorkflowTaskArgs
deriving DecidableEq, Repr

/-- The function `CreateEnvAndTaskByPR`, lines 439-509.  Each of its loops
gets `fuel` iterations.  The mutex only orders concurrent runs and is not
modelled. -/
def CreateEnvAndTaskByPR (d : Deps) (fuel : Nat) (workflowArgs : WorkflowTaskArgs) (prID : Int)
    (requestID : String) : Run EnvTaskResult :=
  let entry := Call.CreateEnvAndTaskByPR workflowArgs prID requestID
  let cFind := Call.ProductFind workflowArgs.ProductTmplName workflowArgs.BaseNamespace
  match d.ProductFind workflowArgs.ProductTmplName workflowArgs.BaseNamespace with
  | .error err =>
    { calls := [entry, cFind],
      result := some ⟨some ("CreateEnvAndTaskByPR Product Find err:" ++ err), workflowArgs⟩ }
  | .ok baseProduct =>
    let renderCalls :=
      match baseProduct.Render with
      | some render => [Call.RenderSetFind render.Name render.Revision]
      | none => []
    let renderSet :=
      match baseProduct.Render with
      | some render => d.RenderSetFind render.Name render.Revision
      | none => none
    let envName := prEnvName prID (d.GetRandomNumString 3) (d.GetRandomString 3)
    let product := cloneBaseProduct d baseProduct renderSet envName workflowArgs
    let cs1 := [entry, cFind] ++ renderCalls ++ [Call.CreateProduct d.SystemUser requestID product]
    match d.CreateProduct d.SystemUser requestID product with
    | some err =>
      { calls := cs1,
        result := some ⟨some ("CreateEnvAndTaskByPR CreateProduct err:" ++ err), workflowArgs⟩ }
    | none =>
      let timeoutSeconds := d.ServiceStartTimeout
      let wait := WaitEnvCreate d fuel timeoutSeconds envName workflowArgs
      match wait.result with
      | none => { calls := cs1 ++ wait.calls, result := none }
      | some (some err, _) => { calls := cs1 ++ wait.calls, result := some ⟨some err, workflowArgs⟩ }
      | some (none, polls) =>
        let workflowArgs := { workflowArgs with Namespace := envName }
        let cs2 := cs1 ++ wait.calls ++
          [Call.CreateWorkflowTask workflowArgs d.WebhookTaskCreator d.AnonymousUserID]
        match d.CreateWorkflowTask workflowArgs d.WebhookTaskCreator d.AnonymousUserID with
        | .error err =>
          { calls := cs2,
            result := some ⟨some ("CreateEnvAndTaskByPR CreateWorkflowTask err???" ++ err ++ " "),
              workflowArgs⟩ }
        | .ok taskResp =>
          let poll := pollTaskStatus d taskResp fuel 0
          match poll.result with
          | none => { calls := cs2 ++ poll.calls, result := none }
          | some taskStatus =>
            let recycle :=
              recycleEnv d fuel timeoutSeconds envName workflowArgs requestID taskStatus polls
            { calls := cs2 ++ poll.calls ++ recycle.calls,
              result := recycle.result.map (fun err => ⟨err, workflowArgs⟩) }

/-! ## The dispatch loop `TriggerWorkflowByGitlabEvent` -/

/-- Go `strings.Split(s, ",")[0]`: the part of `s` before its first comma. -/
def firstOfCommaList (s : String) : String :=
  String.mk (s.data.takeWhile (fun c => c != ','))

/-- The variables `mErr` and `notification` that the dispatch carries from one
hook to the next, and the `DiffNote` collection. -/
structure LoopVars where
  mErr : List Error
  notification : Option Notification
  diffNotes : DiffNoteColl
deriving DecidableEq, Repr

/-- The outcome of a part of the dispatch: the loop variables after it, the
calls it made, and whether it ran to its end (`false`: the fuel ran out inside
`CreateEnvAndTaskByPR`). -/
structure StepResult where
  vars : LoopVars
  calls : List Call
  finished : Bool
deriving DecidableEq, Repr

/-- The values set by lines 255-287 for one matched hook. -/
structure MergeRequestInfo where
  isMergeRequest : Bool
  prID : Int
  mergeRequestID : String
  commitID : String
deriving DecidableEq, Repr

/-- Lines 255-287 of the dispatch: for a merge event, cancel the superseded
task and, while there is no notification yet, send the initial comment and
initialise the diff note. -/
def mergeRequestSteps (d : Deps) (event : Event) (baseURI : String) (mainRepo : MainHookRepo)
    (workflowArgs : WorkflowTaskArgs) (vars : LoopVars) :
    MergeRequestInfo × LoopVars × List Call :=
  match event with
  | .merge ev =>
    let mergeRequestID := toString ev.ObjectAttributes.IID
    let commitID := ev.ObjectAttributes.LastCommit.ID
    let autoCancelOpt : AutoCancelOpt :=
      { MergeRequestID := mergeRequestID, CommitID := commitID, TaskType := d.WorkflowType,
        MainRepo := mainRepo, WorkflowArgs := workflowArgs }
    let mErr :=
      match d.AutoCancelTask autoCancelOpt with
      | some err => vars.mErr ++ [err]
      | none => vars.mErr
    let info : MergeRequestInfo :=
      { isMergeRequest := true, prID := ev.ObjectAttributes.IID,
        mergeRequestID := mergeRequestID, commitID := commitID }
    match vars.notification with
    | none =>
      let note := InitDiffNote d ev mainRepo vars.diffNotes
      (info,
        { mErr := mErr,
          notification := d.SendInitWebhookComment mainRepo ev.ObjectAttributes.IID baseURI,
          diffNotes := note.coll },
        [Call.AutoCancelTask autoCancelOpt,
          Call.SendInitWebhookComment mainRepo ev.ObjectAttributes.IID baseURI] ++ note.calls)
    | some _ =>
      (info, { vars with mErr := mErr }, [Call.AutoCancelTask autoCancelOpt])
  | _ =>
    ({ isMergeRequest := false, prID := 0, mergeRequestID := "", commitID := "" }, vars, [])

/-- Lines 289-299 of the dispatch: the arguments of the task to create. -/
def hookTaskArgs (d : Deps) (matcher : gitEventMatcher) (requestID : String) (prod : Product)
    (mainRepo : MainHookRepo) (workflowArgs : WorkflowTaskArgs)
    (notification : Option Notification) (info : MergeRequestInfo) : WorkflowTaskArgs :=
  let workflowArgs :=
    match notification with
    | some n => { workflowArgs with NotificationID := n.ID }
    | none => workflowArgs
  let args := matcher.UpdateTaskArgs d prod workflowArgs mainRepo requestID
  { args with
    MergeRequestID := info.mergeRequestID,
    CommitID := info.commitID,
    Source := d.SourceFromGitlab,
    CodehostID := mainRepo.CodehostID,
    RepoOwner := mainRepo.RepoOwner,
    RepoName := mainRepo.RepoName }

/-- Lines 300-319 of the dispatch: create the task, directly or through
`CreateEnvAndTaskByPR`. -/
def createTask (d : Deps) (fuel : Nat) (baseURI requestID : String) (workflow : Workflow)
    (mainRepo : MainHookRepo) (args : WorkflowTaskArgs) (info : MergeRequestInfo)
    (vars : LoopVars) : StepResult :=
  if args.BaseNamespace = "" then
    let c := Call.CreateWorkflowTask args d.WebhookTaskCreator d.AnonymousUserID
    match d.CreateWorkflowTask args d.WebhookTaskCreator d.AnonymousUserID with
    | .error err =>
      { vars := { vars with mErr := vars.mErr ++ [err] },
        calls := [c, Call.SendErrWebhookComment mainRepo workflow err info.prID baseURI],
        finished := true }
    | .ok _ => { vars := vars, calls := [c], finished := true }
  else if args.BaseNamespace ≠ "" ∧ info.isMergeRequest = true then
    let run := CreateEnvAndTaskByPR d fuel args info.prID requestID
    { vars := vars, calls := run.calls, finished := run.result.isSome }
  else
    { vars := vars, calls := [], finished := true }

/-- The body of the inner loop of the dispatch, lines 225-319, for one hook
item. -/
def triggerHook (d : Deps) (fuel : Nat) (event : Event) (baseURI requestID : String)
    (workflow : Workflow) (item : WorkflowHook) (vars : LoopVars) : StepResult :=
  match item.WorkflowArgs with
  | none => { vars := vars, calls := [], finished := true }
  | some workflowArgs =>
    match createGitlabEventMatcher event (findChangedFilesOfMergeRequest d) workflow with
    | none => { vars := vars, calls := [], finished := true }
    | some matcher =>
      let m := matcher.Match d item.MainRepo
      match m.err with
      | some err =>
        { vars := { vars with mErr := vars.mErr ++ [err] }, calls := m.calls, finished := true }
      | none =>
        if !m.matched then
          { vars := vars, calls := m.calls, finished := true }
        else
          let mainRepo := m.hookRepo
          let namespace0 := firstOfCommaList workflowArgs.Namespace
          let cFind := Call.ProductFind workflow.ProductTmplName namespace0
          match d.ProductFind workflow.ProductTmplName namespace0 with
          | .error _ => { vars := vars, calls := m.calls ++ [cFind], finished := true }
          | .ok prod =>
            let (info, vars1, csMerge) := mergeRequestSteps d event baseURI mainRepo workflowArgs vars
            let args :=
              hookTaskArgs d matcher requestID prod mainRepo workflowArgs vars1.notification info
            let created := createTask d fuel baseURI requestID workflow mainRepo args info vars1
            { vars := created.vars,
              calls := m.calls ++ [cFind] ++ csMerge ++ created.calls,
              finished := created.finished }

/-- The inner loop of the dispatch, lines 224-320, over the hook items of one
workflow.  A step that did not finish ends the run. -/
def triggerHooks (d : Deps) (fuel : Nat) (event : Event) (baseURI requestID : String)
    (workflow : Workflow) : List WorkflowHook → LoopVars → StepResult
  | [], vars => { vars := vars, calls := [], finished := true }
  | item :: rest, vars =>
    let step := triggerHook d fuel event baseURI requestID workflow item vars
    if step.finished then
      let tail := triggerHooks d fuel event baseURI requestID workflow rest step.vars
      { tail with calls := step.calls ++ tail.calls }
    else
      step

/-- The outer loop of the dispatch, lines 218-321, over the workflows. -/
def triggerWorkflows (d : Deps) (fuel : Nat) (event : Event) (baseURI requestID : String) :
    List Workflow → LoopVars → StepResult
  | [], vars => { vars := vars, calls := [], finished := true }
  | workflow :: rest, vars =>
    match workflow.HookCtl with
    | none => triggerWorkflows d fuel event baseURI requestID rest vars
    | some hookCtl =>
      if !hookCtl.Enabled then
        triggerWorkflows d fuel event baseURI requestID rest vars
      else
        let step := triggerHooks d fuel event baseURI requestID workflow hookCtl.Items vars
        if step.finished then
          let tail := triggerWorkflows d fuel event baseURI requestID rest step.vars
          { tail with calls := step.calls ++ tail.calls }
        else
          step

/-- Go `(*multierror.Error).ErrorOrNil`: nil when no error was appended. -/
def ErrorOrNil (mErr : List Error) : Option (List Error) :=
  if mErr.isEmpty then none else some mErr

/-- The results of the dispatch: the calls made, the `DiffNote` collection
it leaves, and the Go result: `none` when the dispatch did not return within
the fuel, `some none` for a nil error, `some (some errs)` for the aggregated
error made of `errs` (for the error of the workflow listing, returned as it
is, `errs` is that error alone). -/
structure DispatchResult where
  calls : List Call
  diffNotes : DiffNoteColl
  result : Option (Option (List Error))
deriving DecidableEq, Repr

/-- The function `TriggerWorkflowByGitlabEvent`, lines 202-324, started on
the `DiffNote` collection `diffNotes`. -/
def TriggerWorkflowByGitlabEvent (d : Deps) (fuel : Nat) (event : Event)
    (baseURI requestID : String) (diffNotes : DiffNoteColl) : DispatchResult :=
  match d.ListWorkflows with
  | .error err =>
    { calls := [Call.ListWorkflows], diffNotes := diffNotes, result := some (some [err]) }
  | .ok workflowList =>
    let run := triggerWorkflows d fuel event baseURI requestID workflowList
      { mErr := [], notification := none, diffNotes := diffNotes }
    { calls := Call.ListWorkflows :: run.calls,
      diffNotes := run.vars.diffNotes,
      result := if run.finished then some (ErrorOrNil run.vars.mErr) else none }


/-! ## Sample collaborators

Concrete values of `Deps` on which the theorems below are exercised. -/

/-- Modelled from the spec: `EventConfigured`, whose code is not in the
sources.  "The event-type mask must include the event's kind". -/
def specEventConfigured (hookRepo : MainHookRepo) (event : HookEventType) : Bool :=
  hookRepo.Events.contains event

/-- Modelled from the spec: `getBranchFromRef`, whose code is not in the
sources.  "push: derived from ref": the ref without its `refs/heads/` start. -/
def specGetBranchFromRef (ref : String) : String :=
  if "refs/heads/".data.isPrefixOf ref.data then String.mk (ref.data.drop 11) else ref

/-- Modelled from the spec: `MatchChanges`, whose code is not in the sources.
"the rule matches only if the changed-file set intersects rule's include
patterns and does not exclusively fall in exclude patterns (a changeset with
zero qualifying files after filtering does not match)".  An entry of
`MatchFolders` that starts with `!` excludes the paths that start with the
rest of it, any other entry includes the paths that start with it; without an
including entry every path is included. -/
def specMatchChanges (hookRepo : MainHookRepo) (files : List String) : Bool :=
  let includes := hookRepo.MatchFolders.filter (fun m => !("!".data.isPrefixOf m.data))
  let excludes := (hookRepo.MatchFolders.filter (fun m => "!".data.isPrefixOf m.data)).map
    (fun m => m.data.drop 1)
  files.any (fun f =>
    (includes.isEmpty || includes.any (fun m => m.data.isPrefixOf f.data)) &&
      !(excludes.any (fun m => m.isPrefixOf f.data)))

/-- The behaviour of Go `regexp` on the three patterns of the examples: `(`
does not compile, `.*` matches every string, `^rel-.*` matches the strings
that start with `rel-`.  No other pattern is used. -/
def sampleRegexpCompile (pattern : String) : Option (String → Bool) :=
  if pattern = ".*" then some (fun _ => true)
  else if pattern = "^rel-.*" then some (fun s => "rel-".data.isPrefixOf s.data)
  else none

/-- Collaborators that all succeed: one codehost, a push whose diff changes
`a.go` into `b.go`, a merge request that changes `a.go` and `b.go`, the
environments `dev` and `base`, an environment that is running at the first
poll and gone at the first poll after its deletion, and a task that has
passed at the first poll. -/
def sampleDeps : Deps where
  EventConfigured := specEventConfigured
  getBranchFromRef := specGetBranchFromRef
  MatchChanges := specMatchChanges
  regexpCompile := sampleRegexpCompile
  GetCodehostDetail := fun _ => .ok { Address := "https://gitlab.example", OauthToken := "token" }
  NewClient := fun address token => .ok { Address := address, OauthToken := token }
  Compare := fun _ _ _ _ => .ok [{ NewPath := "a.go", OldPath := "b.go" }]
  ListChangedFiles := fun _ _ => .ok ["a.go", "b.go"]
  ErrCodehostListProjects := fun desc => "list projects: " ++ desc
  ListWorkflows := .ok []
  ProductFind := fun name envName =>
    if envName = "dev" ∨ envName = "base" then
      .ok { ID := "1", ProductName := name, EnvName := envName, Namespace := envName,
            UpdateBy := "admin", Render := none, Vars := [] }
    else .error "not found"
  AutoCancelTask := fun _ => none
  SendInitWebhookComment := fun _ _ _ => some { ID := "n1" }
  SendErrWebhookComment := fun _ _ _ _ _ => none
  factoryUpdate := fun workflow _ _ args _ => { args with ProductTmplName := workflow.ProductTmplName }
  CreateWorkflowTask := fun _ _ _ => .ok { TaskID := 1, PipelineName := "wf" }
  UpdateMergeRequestDiscussionNote := fun _ _ _ _ _ => none
  CreateMergeRequestDiscussion := fun _ _ _ => .ok { ID := "d1", Notes := [11] }
  RenderSetFind := fun _ _ => none
  GetRandomNumString := fun _ => "123"
  GetRandomString := fun _ => "abc"
  GetProductEnvNamespace := fun envName productName _ => productName ++ "-env-" ++ envName
  CreateProduct := fun _ _ _ => none
  ServiceStartTimeout := 300
  GetProduct := fun _ _ _ poll => if poll = 0 then .ok "Running" else .error "not found"
  UpdateEnvAndTaskWebhookComment := fun _ _ => none
  TaskFind := fun _ _ _ => .ok "passed"
  DeleteProduct := fun _ _ _ _ => none
  DiffNoteFindErr := fun _ => none
  DiffNoteUpdateErr := fun _ _ _ _ => none
  DiffNoteCreateErr := fun _ => none
  createTimeout := fun _ => false
  deleteTimeout := fun _ => false
  StatusFailed := "failed"
  StatusPassed := "passed"
  StatusTimeout := "timeout"
  StatusCancelled := "cancelled"
  EnvRecyclePolicyAlways := "always"
  EnvRecyclePolicyTaskStatus := "success"
  PodRunning := "Running"
  PodUnstable := "Unstable"
  ClusterUnknown := "Unknown"
  SystemUser := "system"
  WebhookTaskCreator := "webhook"
  AnonymousUserID := 0
  SourceFromGitlab := "gitlab"
  WorkflowType := "workflow"

/-- A workflow without hooks, to fill the `workflow` field of a matcher. -/
def sampleWorkflow : Workflow :=
  { Name := "wf", ProductTmplName := "shop", HookCtl := none }

/-- A push to branch `main` of the project `acme/web`. -/
def samplePush : PushEvent :=
  { Project := { PathWithNamespace := "acme/web" }, Ref := "refs/heads/main", ProjectID := 7,
    Before := "c0", After := "c1" }

/-- The push matcher of `samplePush`. -/
def samplePushMatcher : gitlabPushEventMatcher :=
  { workflow := sampleWorkflow, event := samplePush }

/-- The rule `{branch "main", isRegular false, events [Push]}` on the project
`acme/web`, without a path filter. -/
def sampleRule : MainHookRepo :=
  { RepoOwner := "acme", RepoName := "web", Branch := "main", IsRegular := false, CodehostID := 1,
    Events := [HookEventType.HookEventPush], MatchFolders := [] }

/-- The rule `sampleRule` restricted to the changes under `docs/`. -/
def sampleDocsRule : MainHookRepo :=
  { sampleRule with MatchFolders := ["docs/"] }

/-- The collaborators `sampleDeps`, with a `client.Compare` that fails. -/
def compareFailsDeps : Deps :=
  { sampleDeps with Compare := fun _ _ _ _ => .error "502 Bad Gateway" }

/-- A rule whose branch is the pattern `(`, which does not compile. -/
def sampleBadRegexRule : MainHookRepo :=
  { RepoOwner := "acme", RepoName := "web", Branch := "(", IsRegular := true, CodehostID := 1,
    Events := [HookEventType.HookEventPush, HookEventType.HookEventPr], MatchFolders := [] }

/-- A merge request of the project `acme/web` into `main`, in the given
state, with head commit `c1`. -/
def sampleMerge (state : String) : MergeEvent :=
  { ObjectAttributes :=
      { Target := { PathWithNamespace := "acme/web" }, TargetBranch := "main", State := state,
        IID := 7, LastCommit := { ID := "c1" } } }

/-- The merge matcher of `sampleMerge state`, as the dispatch builds it. -/
def sampleMergeMatcher (state : String) : gitlabMergeEventMatcher :=
  { diffFunc := findChangedFilesOfMergeRequest sampleDeps, workflow := sampleWorkflow,
    event := sampleMerge state }

/-- The rule `{branch ".*", isRegular true, events [Push, Pr]}` on the project
`acme/web`. -/
def sampleRegexRule : MainHookRepo :=
  { RepoOwner := "acme", RepoName := "web", Branch := ".*", IsRegular := true, CodehostID := 1,
    Events := [HookEventType.HookEventPush, HookEventType.HookEventPr], MatchFolders := [] }

/-- The arguments of a task on the product `shop` with the base environment
`base` and the given recycle policy. -/
def sampleEnvArgs (policy : String) : WorkflowTaskArgs :=
  { ProductTmplName := "shop", Namespace := "dev", BaseNamespace := "base",
    EnvRecyclePolicy := policy, NotificationID := "", MergeRequestID := "7", CommitID := "c1",
    Source := "gitlab", CodehostID := 1, RepoOwner := "acme", RepoName := "web" }

/-- The base environment that `sampleDeps.ProductFind` returns for
`sampleEnvArgs`. -/
def sampleBaseProduct : Product :=
  { ID := "1", ProductName := "shop", EnvName := "base", Namespace := "base", UpdateBy := "admin",
    Render := none, Vars := [] }

/-- The collaborators `sampleDeps`, with an environment that stays in the
status `Creating` and a timeout flag that is set from iteration 2 on. -/
def createTimeoutDeps : Deps :=
  { sampleDeps with
    GetProduct := fun _ _ _ _ => .ok "Creating"
    createTimeout := fun i => decide (2 ≤ i) }

/-- The collaborators `sampleDeps`, with a task that is found running at the
first poll and in the given status from the second poll on. -/
def taskEndsDeps (status : String) : Deps :=
  { sampleDeps with TaskFind := fun _ _ poll => if poll = 0 then .ok "running" else .ok status }

/-- The lookup key that `InitDiffNote` builds for an event and a rule, lines
354-358. -/
def diffNoteKey (ev : MergeEvent) (mainRepo : MainHookRepo) : DiffNoteFindOpt :=
  { CodehostID := mainRepo.CodehostID,
    ProjectID := mainRepo.RepoOwner ++ "/" ++ mainRepo.RepoName,
    MergeRequestID := ev.ObjectAttributes.IID }

/-- The stored thread of merge request 7 of `acme/web`, synchronised with the
given commit. -/
def sampleDiffNote (commitID : String) : DiffNote :=
  { Repo := { CodehostID := 1, Source := "gitlab", ProjectID := "acme/web",
              Address := "https://gitlab.example", OauthToken := "token" },
    MergeRequestID := 7, CommitID := commitID, Body := "KodeRover CI ?????????...",
    Resolved := true, DiscussionID := "d0", NoteID := 10 }

/-- The stored thread of merge request 8 of `acme/web`. -/
def otherDiffNote : DiffNote :=
  { sampleDiffNote "c9" with MergeRequestID := 8 }

/-- A workflow `wf` of the product `shop` with enabled hooks `items`. -/
def sampleHookWorkflow (items : List WorkflowHook) : Workflow :=
  { Name := "wf", ProductTmplName := "shop", HookCtl := some { Enabled := true, Items := items } }

/-- The collaborators `sampleDeps`, with `workflows` as the configured
workflows. -/
def depsListing (workflows : List Workflow) : Deps :=
  { sampleDeps with ListWorkflows := .ok workflows }

/-- The rule `main` of `acme/web`, for pushes and merge requests. -/
def sampleMainRule : MainHookRepo :=
  { RepoOwner := "acme", RepoName := "web", Branch := "main", IsRegular := false, CodehostID := 1,
    Events := [HookEventType.HookEventPush, HookEventType.HookEventPr], MatchFolders := [] }

/-- The hook of `sampleMainRule` that runs in the environment `dev` with the
base environment `base` (policy `always`). -/
def sampleBaseHook : WorkflowHook :=
  { MainRepo := sampleMainRule, WorkflowArgs := some (sampleEnvArgs "always") }

/-- The hook of `sampleMainRule` that runs in the environment `dev` without a
base environment. -/
def sampleDirectHook : WorkflowHook :=
  { MainRepo := sampleMainRule,
    WorkflowArgs := some { sampleEnvArgs "always" with BaseNamespace := "" } }

/-- The collaborators `sampleDeps` with `workflows` configured and without
the environment `base`: only `dev` is found. -/
def noBaseDeps (workflows : List Workflow) : Deps :=
  { sampleDeps with
    ListWorkflows := .ok workflows
    ProductFind := fun name envName =>
      if envName = "dev" then
        .ok { ID := "1", ProductName := name, EnvName := envName, Namespace := envName,
              UpdateBy := "admin", Render := none, Vars := [] }
      else .error "not found" }

/-- The collaborators `createTimeoutDeps` with `workflows` configured. -/
def createTimeoutListing (workflows : List Workflow) : Deps :=
  { createTimeoutDeps with ListWorkflows := .ok workflows }

/-- The collaborators `sampleDeps` with `workflows` configured and a
`CreateWorkflowTask` that fails. -/
def taskFailsDeps (workflows : List Workflow) : Deps :=
  { sampleDeps with
    ListWorkflows := .ok workflows
    CreateWorkflowTask := fun _ _ _ => .error "boom" }

/-- The task arguments that the dispatch builds from `sampleBaseHook` for the
merge request 7 with head commit `c1`, once the notification `n1` exists. -/
def sampleBuiltArgs : WorkflowTaskArgs :=
  { sampleEnvArgs "always" with NotificationID := "n1" }

/-- The loop variables at the start of a dispatch on an empty `DiffNote`
collection. -/
def sampleStartVars : LoopVars :=
  { mErr := [], notification := none, diffNotes := [] }

/-- The number that a list of decimal digits writes, most significant digit
first (`0` is the character 48). -/
def decimalValue (digits : List Char) : Nat :=
  digits.foldl (fun acc c => acc * 10 + (c.toNat - 48)) 0

/-- A merge matcher for the opened merge request into `main` whose `diffFunc`
fails. -/
def sampleFailingDiffMatcher : gitlabMergeEventMatcher :=
  { diffFunc := fun _ _ => ([], .error "502 Bad Gateway"), workflow := sampleWorkflow,
    event := sampleMerge "opened" }

/-- The rule `sampleRegexRule` restricted to the changes under `docs/`. -/
def sampleDocsRegexRule : MainHookRepo :=
  { sampleRegexRule with MatchFolders := ["docs/"] }

/-- The product that `CreateEnvAndTaskByPR` creates from `sampleBaseProduct`
for the PR number `prID` when the random draws are `123` and `abc`. -/
def sampleClonedProduct (prID : Int) : Product :=
  { ID := "", ProductName := "shop", EnvName := prEnvName prID "123" "abc",
    Namespace := "shop-env-" ++ prEnvName prID "123" "abc", UpdateBy := "system",
    Render := none, Vars := [] }

/-- The early exits of the push matcher: when the repository, the event type
or the branch filter fails, the result is `(false, nil)`, the rule is
unchanged and no call is made. -/
theorem pushMatch_of_filter_fails (d : Deps) (gpem : gitlabPushEventMatcher)
    (hookRepo : MainHookRepo)
    (h : ¬ (hookRepo.RepoOwner ++ "/" ++ hookRepo.RepoName = gpem.event.Project.PathWithNamespace ∧
      d.EventConfigured hookRepo HookEventType.HookEventPush = true ∧
      (hookRepo.IsRegular = false → hookRepo.Branch = d.getBranchFromRef gpem.event.Ref) ∧
      (hookRepo.IsRegular = true →
        (regexpMatchString d hookRepo.Branch (d.getBranchFromRef gpem.event.Ref)).1 = true))) :
    gpem.Match d hookRepo = ⟨false, none, hookRepo, []⟩ := by
  unfold gitlabPushEventMatcher.Match
  by_cases h1 : hookRepo.RepoOwner ++ "/" ++ hookRepo.RepoName = gpem.event.Project.PathWithNamespace
  · by_cases h2 : d.EventConfigured hookRepo HookEventType.HookEventPush = true
    · cases hreg : hookRepo.IsRegular
      · by_cases h3 : hookRepo.Branch = d.getBranchFromRef gpem.event.Ref
        · exact absurd ⟨h1, h2, fun _ => h3, fun h4 => by simp [hreg] at h4⟩ h
        · simp [h1, h2, hreg, h3]
      · cases h4 : (regexpMatchString d hookRepo.Branch (d.getBranchFromRef gpem.event.Ref)).1
        · simp [h1, h2, hreg, h4]
        · exact absurd ⟨h1, h2, fun h5 => by simp [hreg] at h5, fun _ => h4⟩ h
    · simp [h1, h2]
  · simp [h1]

/-- The push matcher past its filters: the rule gets the branch of the event,
the changed files are retrieved, and the result is that of `MatchChanges`, or
the retrieval error. -/
theorem pushMatch_of_filter_passes (d : Deps) (gpem : gitlabPushEventMatcher)
    (hookRepo : MainHookRepo)
    (h1 : hookRepo.RepoOwner ++ "/" ++ hookRepo.RepoName = gpem.event.Project.PathWithNamespace)
    (h2 : d.EventConfigured hookRepo HookEventType.HookEventPush = true)
    (h3 : hookRepo.IsRegular = false → hookRepo.Branch = d.getBranchFromRef gpem.event.Ref)
    (h4 : hookRepo.IsRegular = true →
      (regexpMatchString d hookRepo.Branch (d.getBranchFromRef gpem.event.Ref)).1 = true) :
    gpem.Match d hookRepo =
      match pushChangedFiles d gpem.event hookRepo.CodehostID with
      | (cs, .error err) =>
        ⟨false, some err, { hookRepo with Branch := d.getBranchFromRef gpem.event.Ref }, cs⟩
      | (cs, .ok changedFiles) =>
        ⟨d.MatchChanges { hookRepo with Branch := d.getBranchFromRef gpem.event.Ref } changedFiles,
          none, { hookRepo with Branch := d.getBranchFromRef gpem.event.Ref }, cs⟩ := by
  unfold gitlabPushEventMatcher.Match
  cases hreg : hookRepo.IsRegular
  · simp [h1, h2, hreg, h3 hreg]
  · simp [h1, h2, hreg, h4 hreg]

/-- The early exits of the merge matcher: when the repository, the event type
or the branch filter fails, the result is `(false, nil)`, the rule is
unchanged and no call is made. -/
theorem mergeMatch_of_filter_fails (d : Deps) (gmem : gitlabMergeEventMatcher)
    (hookRepo : MainHookRepo)
    (h : ¬ (hookRepo.RepoOwner ++ "/" ++ hookRepo.RepoName =
        gmem.event.ObjectAttributes.Target.PathWithNamespace ∧
      d.EventConfigured hookRepo HookEventType.HookEventPr = true ∧
      (hookRepo.IsRegular = false → hookRepo.Branch = gmem.event.ObjectAttributes.TargetBranch) ∧
      (hookRepo.IsRegular = true →
        (regexpMatchString d hookRepo.Branch gmem.event.ObjectAttributes.TargetBranch).1 = true))) :
    gmem.Match d hookRepo = ⟨false, none, hookRepo, []⟩ := by
  unfold gitlabMergeEventMatcher.Match
  by_cases h1 : hookRepo.RepoOwner ++ "/" ++ hookRepo.RepoName =
      gmem.event.ObjectAttributes.Target.PathWithNamespace
  · by_cases h2 : d.EventConfigured hookRepo HookEventType.HookEventPr = true
    · cases hreg : hookRepo.IsRegular
      · by_cases h3 : hookRepo.Branch = gmem.event.ObjectAttributes.TargetBranch
        · exact absurd ⟨h1, h2, fun _ => h3, fun h4 => by simp [hreg] at h4⟩ h
        · simp [h1, h2, hreg, h3]
      · cases h4 : (regexpMatchString d hookRepo.Branch gmem.event.ObjectAttributes.TargetBranch).1
        · simp [h1, h2, hreg, h4]
        · exact absurd ⟨h1, h2, fun h5 => by simp [hreg] at h5, fun _ => h4⟩ h
    · simp [h1, h2]
  · simp [h1]

/-- The merge matcher past its filters: the rule gets the target branch of the
event; then, for an opened merge request, the changed files are retrieved and
the result is that of `MatchChanges`, or the retrieval error; for any other
state the result is `(false, nil)` without a call. -/
theorem mergeMatch_of_filter_passes (d : Deps) (gmem : gitlabMergeEventMatcher)
    (hookRepo : MainHookRepo)
    (h1 : hookRepo.RepoOwner ++ "/" ++ hookRepo.RepoName =
      gmem.event.ObjectAttributes.Target.PathWithNamespace)
    (h2 : d.EventConfigured hookRepo HookEventType.HookEventPr = true)
    (h3 : hookRepo.IsRegular = false → hookRepo.Branch = gmem.event.ObjectAttributes.TargetBranch)
    (h4 : hookRepo.IsRegular = true →
      (regexpMatchString d hookRepo.Branch gmem.event.ObjectAttributes.TargetBranch).1 = true) :
    gmem.Match d hookRepo =
      if gmem.event.ObjectAttributes.State = "opened" then
        match gmem.diffFunc gmem.event hookRepo.CodehostID with
        | (cs, .error err) =>
          ⟨false, some err, { hookRepo with Branch := gmem.event.ObjectAttributes.TargetBranch },
            Call.diffFunc gmem.event hookRepo.CodehostID :: cs⟩
        | (cs, .ok changedFiles) =>
          ⟨d.MatchChanges { hookRepo with Branch := gmem.event.ObjectAttributes.TargetBranch }
              changedFiles,
            none, { hookRepo with Branch := gmem.event.ObjectAttributes.TargetBranch },
            Call.diffFunc gmem.event hookRepo.CodehostID :: cs⟩
      else
        ⟨false, none, { hookRepo with Branch := gmem.event.ObjectAttributes.TargetBranch }, []⟩ := by
  unfold gitlabMergeEventMatcher.Match
  cases hreg : hookRepo.IsRegular
  · simp [h1, h2, hreg, h3 hreg]
  · simp [h1, h2, hreg, h4 hreg]

/-- A pattern that does not compile matches no string. -/
theorem regexpMatchString_of_compile_fails (d : Deps) (pattern s : String)
    (h : d.regexpCompile pattern = none) : (regexpMatchString d pattern s).1 = false := by
  simp [regexpMatchString, h]

/-- C1, as the code has it: for a rule with `IsRegular = false` and a push
event, `Match` returns true if and only if the repository identity equals the
project path of the event, the branch of the rule equals the branch derived
from the ref, the push event type is enabled on the rule, the changed files
are retrieved without an error, and `MatchChanges` accepts them. -/
theorem C1_push_exact_match_iff (d : Deps) (gpem : gitlabPushEventMatcher)
    (hookRepo : MainHookRepo) (hreg : hookRepo.IsRegular = false) :
    (gpem.Match d hookRepo).matched = true ↔
      (hookRepo.RepoOwner ++ "/" ++ hookRepo.RepoName = gpem.event.Project.PathWithNamespace ∧
        hookRepo.Branch = d.getBranchFromRef gpem.event.Ref ∧
        d.EventConfigured hookRepo HookEventType.HookEventPush = true ∧
        ∃ changedFiles,
          (pushChangedFiles d gpem.event hookRepo.CodehostID).2 = .ok changedFiles ∧
            d.MatchChanges hookRepo changedFiles = true) := by
  by_cases h : hookRepo.RepoOwner ++ "/" ++ hookRepo.RepoName = gpem.event.Project.PathWithNamespace ∧
      d.EventConfigured hookRepo HookEventType.HookEventPush = true ∧
      (hookRepo.IsRegular = false → hookRepo.Branch = d.getBranchFromRef gpem.event.Ref) ∧
      (hookRepo.IsRegular = true →
        (regexpMatchString d hookRepo.Branch (d.getBranchFromRef gpem.event.Ref)).1 = true)
  · obtain ⟨h1, h2, h3, h4⟩ := h
    have hb : hookRepo.Branch = d.getBranchFromRef gpem.event.Ref := h3 hreg
    have hsame : ({ hookRepo with Branch := d.getBranchFromRef gpem.event.Ref } : MainHookRepo)
        = hookRepo := by
      rw [← hb]
    rw [pushMatch_of_filter_passes d gpem hookRepo h1 h2 h3 h4, hsame]
    rcases hfiles : pushChangedFiles d gpem.event hookRepo.CodehostID with ⟨cs, err | files⟩
    · simp [h1, h2, hb]
    · simp [h1, h2, hb]
  · rw [pushMatch_of_filter_fails d gpem hookRepo h]
    constructor
    · intro hm
      simp at hm
    · rintro ⟨h1, h3, h2, -⟩
      exact absurd ⟨h1, h2, fun _ => h3, fun h5 => by simp [hreg] at h5⟩ h

/-- C1 on the scenario of the spec: the push to `main` matches the rule
`{branch "main", isRegular false, events [Push]}` without a path filter, the
changed files being `a.go` and `b.go`. -/
theorem C1_push_exact_match_iff_witness :
    sampleRule.IsRegular = false ∧
      (samplePushMatcher.Match sampleDeps sampleRule).matched = true ∧
      sampleRule.RepoOwner ++ "/" ++ sampleRule.RepoName
        = samplePushMatcher.event.Project.PathWithNamespace ∧
      sampleRule.Branch = sampleDeps.getBranchFromRef samplePushMatcher.event.Ref ∧
      sampleDeps.EventConfigured sampleRule HookEventType.HookEventPush = true ∧
      ∃ changedFiles,
        (pushChangedFiles sampleDeps samplePushMatcher.event sampleRule.CodehostID).2
            = .ok changedFiles ∧
          sampleDeps.MatchChanges sampleRule changedFiles = true :=
  ⟨rfl, by decide,
    (C1_push_exact_match_iff sampleDeps samplePushMatcher sampleRule rfl).mp (by decide)⟩

/-- C1 as stated fails: the push to `main` has the repository, the branch and
the event type of the rule, and `Match` returns false, once because
`client.Compare` fails (the result is the error) and once because the path
filter of the rule rejects the changed files `a.go` and `b.go`. -/
theorem C1_counterexample :
    sampleRule.IsRegular = false ∧ sampleDocsRule.IsRegular = false ∧
      ¬ ((samplePushMatcher.Match compareFailsDeps sampleRule).matched = true ↔
          (sampleRule.RepoOwner ++ "/" ++ sampleRule.RepoName
              = samplePushMatcher.event.Project.PathWithNamespace ∧
            sampleRule.Branch = compareFailsDeps.getBranchFromRef samplePushMatcher.event.Ref ∧
            compareFailsDeps.EventConfigured sampleRule HookEventType.HookEventPush = true)) ∧
      (samplePushMatcher.Match compareFailsDeps sampleRule).err = some "502 Bad Gateway" ∧
      ¬ ((samplePushMatcher.Match sampleDeps sampleDocsRule).matched = true ↔
          (sampleDocsRule.RepoOwner ++ "/" ++ sampleDocsRule.RepoName
              = samplePushMatcher.event.Project.PathWithNamespace ∧
            sampleDocsRule.Branch = sampleDeps.getBranchFromRef samplePushMatcher.event.Ref ∧
            sampleDeps.EventConfigured sampleDocsRule HookEventType.HookEventPush = true)) ∧
      (samplePushMatcher.Match sampleDeps sampleDocsRule).err = none ∧
      (samplePushMatcher.Match sampleDeps sampleDocsRule).calls =
        [Call.GetCodehostDetail 1, Call.NewClient "https://gitlab.example" "token",
          Call.Compare 7 "c0" "c1"] := by
  decide

/-- C2: for a rule with `IsRegular = true` whose branch does not compile as a
regular expression, `Match` of the push matcher and `Match` of the merge
matcher return `(false, nil)`, leave the rule as it was (the branch is not
overwritten) and make no call, so the changed files are not retrieved. -/
theorem C2_uncompilable_pattern_no_match (d : Deps) (gpem : gitlabPushEventMatcher)
    (gmem : gitlabMergeEventMatcher) (hookRepo : MainHookRepo)
    (hreg : hookRepo.IsRegular = true) (hbad : d.regexpCompile hookRepo.Branch = none) :
    ((gpem.Match d hookRepo).matched = false ∧ (gpem.Match d hookRepo).err = none ∧
        (gpem.Match d hookRepo).hookRepo = hookRepo ∧ (gpem.Match d hookRepo).calls = []) ∧
      ((gmem.Match d hookRepo).matched = false ∧ (gmem.Match d hookRepo).err = none ∧
        (gmem.Match d hookRepo).hookRepo = hookRepo ∧ (gmem.Match d hookRepo).calls = []) := by
  constructor
  · rw [pushMatch_of_filter_fails d gpem hookRepo]
    · exact ⟨rfl, rfl, rfl, rfl⟩
    · rintro ⟨-, -, -, h4⟩
      have := h4 hreg
      rw [regexpMatchString_of_compile_fails d _ _ hbad] at this
      exact Bool.noConfusion this
  · rw [mergeMatch_of_filter_fails d gmem hookRepo]
    · exact ⟨rfl, rfl, rfl, rfl⟩
    · rintro ⟨-, -, -, h4⟩
      have := h4 hreg
      rw [regexpMatchString_of_compile_fails d _ _ hbad] at this
      exact Bool.noConfusion this

/-- C2 on the rule with the pattern `(`, for the push to `main` and for the
opened merge request into `main`. -/
theorem C2_uncompilable_pattern_no_match_witness :
    sampleBadRegexRule.IsRegular = true ∧
      sampleDeps.regexpCompile sampleBadRegexRule.Branch = none ∧
      ((samplePushMatcher.Match sampleDeps sampleBadRegexRule).matched = false ∧
        (samplePushMatcher.Match sampleDeps sampleBadRegexRule).err = none ∧
        (samplePushMatcher.Match sampleDeps sampleBadRegexRule).hookRepo = sampleBadRegexRule ∧
        (samplePushMatcher.Match sampleDeps sampleBadRegexRule).calls = []) ∧
      (((sampleMergeMatcher "opened").Match sampleDeps sampleBadRegexRule).matched = false ∧
        ((sampleMergeMatcher "opened").Match sampleDeps sampleBadRegexRule).err = none ∧
        ((sampleMergeMatcher "opened").Match sampleDeps sampleBadRegexRule).hookRepo
          = sampleBadRegexRule ∧
        ((sampleMergeMatcher "opened").Match sampleDeps sampleBadRegexRule).calls = []) :=
  ⟨rfl, rfl,
    C2_uncompilable_pattern_no_match sampleDeps samplePushMatcher (sampleMergeMatcher "opened")
      sampleBadRegexRule rfl rfl⟩

/-- C9: for a merge event whose state is not `opened` and any rule, `Match`
returns `(false, nil)` and makes no call: `diffFunc` is not invoked. -/
theorem C9_merge_not_opened_no_match (d : Deps) (gmem : gitlabMergeEventMatcher)
    (hookRepo : MainHookRepo) (hstate : gmem.event.ObjectAttributes.State ≠ "opened") :
    (gmem.Match d hookRepo).matched = false ∧ (gmem.Match d hookRepo).err = none ∧
      (gmem.Match d hookRepo).calls = [] := by
  by_cases h : hookRepo.RepoOwner ++ "/" ++ hookRepo.RepoName =
        gmem.event.ObjectAttributes.Target.PathWithNamespace ∧
      d.EventConfigured hookRepo HookEventType.HookEventPr = true ∧
      (hookRepo.IsRegular = false → hookRepo.Branch = gmem.event.ObjectAttributes.TargetBranch) ∧
      (hookRepo.IsRegular = true →
        (regexpMatchString d hookRepo.Branch gmem.event.ObjectAttributes.TargetBranch).1 = true)
  · obtain ⟨h1, h2, h3, h4⟩ := h
    rw [mergeMatch_of_filter_passes d gmem hookRepo h1 h2 h3 h4, if_neg hstate]
    exact ⟨rfl, rfl, rfl⟩
  · rw [mergeMatch_of_filter_fails d gmem hookRepo h]
    exact ⟨rfl, rfl, rfl⟩

/-- C9 on a merged merge request into `main` and the rule with the pattern
`.*`, which passes every filter. -/
theorem C9_merge_not_opened_no_match_witness :
    (sampleMergeMatcher "merged").event.ObjectAttributes.State ≠ "opened" ∧
      ((sampleMergeMatcher "merged").Match sampleDeps sampleRegexRule).matched = false ∧
      ((sampleMergeMatcher "merged").Match sampleDeps sampleRegexRule).err = none ∧
      ((sampleMergeMatcher "merged").Match sampleDeps sampleRegexRule).calls = [] :=
  ⟨by decide,
    C9_merge_not_opened_no_match sampleDeps (sampleMergeMatcher "merged") sampleRegexRule
      (by decide)⟩

/-- C10: whenever `Match` returns true, the branch of the rule afterwards is
the resolved branch of the event: the branch derived from the ref for the push
matcher, the target branch for the merge matcher, whether the rule is exact or
a regular expression. -/
theorem C10_match_stores_resolved_branch (d : Deps) (gpem : gitlabPushEventMatcher)
    (gmem : gitlabMergeEventMatcher) (hookRepo : MainHookRepo) :
    ((gpem.Match d hookRepo).matched = true →
        (gpem.Match d hookRepo).hookRepo.Branch = d.getBranchFromRef gpem.event.Ref) ∧
      ((gmem.Match d hookRepo).matched = true →
        (gmem.Match d hookRepo).hookRepo.Branch = gmem.event.ObjectAttributes.TargetBranch) := by
  constructor
  · by_cases h : hookRepo.RepoOwner ++ "/" ++ hookRepo.RepoName
          = gpem.event.Project.PathWithNamespace ∧
        d.EventConfigured hookRepo HookEventType.HookEventPush = true ∧
        (hookRepo.IsRegular = false → hookRepo.Branch = d.getBranchFromRef gpem.event.Ref) ∧
        (hookRepo.IsRegular = true →
          (regexpMatchString d hookRepo.Branch (d.getBranchFromRef gpem.event.Ref)).1 = true)
    · obtain ⟨h1, h2, h3, h4⟩ := h
      rw [pushMatch_of_filter_passes d gpem hookRepo h1 h2 h3 h4]
      rcases pushChangedFiles d gpem.event hookRepo.CodehostID with ⟨cs, err | files⟩
      · intro hm
        simp at hm
      · intro _
        rfl
    · rw [pushMatch_of_filter_fails d gpem hookRepo h]
      intro hm
      simp at hm
  · by_cases h : hookRepo.RepoOwner ++ "/" ++ hookRepo.RepoName =
          gmem.event.ObjectAttributes.Target.PathWithNamespace ∧
        d.EventConfigured hookRepo HookEventType.HookEventPr = true ∧
        (hookRepo.IsRegular = false → hookRepo.Branch = gmem.event.ObjectAttributes.TargetBranch) ∧
        (hookRepo.IsRegular = true →
          (regexpMatchString d hookRepo.Branch gmem.event.ObjectAttributes.TargetBranch).1 = true)
    · obtain ⟨h1, h2, h3, h4⟩ := h
      rw [mergeMatch_of_filter_passes d gmem hookRepo h1 h2 h3 h4]
      split
      · rcases gmem.diffFunc gmem.event hookRepo.CodehostID with ⟨cs, err | files⟩
        · intro hm
          simp at hm
        · intro _
          rfl
      · intro hm
        simp at hm
    · rw [mergeMatch_of_filter_fails d gmem hookRepo h]
      intro hm
      simp at hm

/-- C10 on the scenario of the spec and on regular-expression rules: the push
to `main` matches the exact rule `main` and the pattern `.*`, the opened merge
request into `main` matches the pattern `.*`, and each time the rule is left
with the branch `main`. -/
theorem C10_match_stores_resolved_branch_witness :
    (samplePushMatcher.Match sampleDeps sampleRule).matched = true ∧
      (samplePushMatcher.Match sampleDeps sampleRule).hookRepo.Branch = "main" ∧
      (samplePushMatcher.Match sampleDeps sampleRegexRule).matched = true ∧
      (samplePushMatcher.Match sampleDeps sampleRegexRule).hookRepo.Branch = "main" ∧
      ((sampleMergeMatcher "opened").Match sampleDeps sampleRegexRule).matched = true ∧
      ((sampleMergeMatcher "opened").Match sampleDeps sampleRegexRule).hookRepo.Branch = "main" :=
  ⟨by decide,
    (C10_match_stores_resolved_branch sampleDeps samplePushMatcher (sampleMergeMatcher "opened")
      sampleRule).1 (by decide),
    by decide,
    (C10_match_stores_resolved_branch sampleDeps samplePushMatcher (sampleMergeMatcher "opened")
      sampleRegexRule).1 (by decide),
    by decide,
    (C10_match_stores_resolved_branch sampleDeps samplePushMatcher (sampleMergeMatcher "opened")
      sampleRegexRule).2 (by decide)⟩

/-! ### Ephemeral environments -/

/-- A call of a wait loop is no task creation, no environment deletion and no
entry into `CreateEnvAndTaskByPR`. -/
theorem isPoll_quiet (c : Call) (h : c.isPoll = true) :
    c.isCreateWorkflowTask = false ∧ c.isDeleteProduct = false ∧
      c.isCreateEnvAndTaskByPR = false := by
  cases c <;> first | exact ⟨rfl, rfl, rfl⟩ | exact Bool.noConfusion h

/-- The creation wait only polls the environment and updates the comment. -/
theorem WaitEnvCreateLoop_calls (d : Deps) (timeoutSeconds : Int) (envName : String)
    (workflowArgs : WorkflowTaskArgs) (fuel i : Nat) :
    ∀ c ∈ (WaitEnvCreateLoop d timeoutSeconds envName workflowArgs fuel i).calls,
      c.isPoll = true := by
  induction fuel generalizing i with
  | zero => simp [WaitEnvCreateLoop]
  | succ fuel ih =>
    intro c hc
    unfold WaitEnvCreateLoop at hc
    split at hc
    · simp at hc
    · split at hc
      · simp only [Run.after, List.mem_append, List.mem_singleton] at hc
        rcases hc with rfl | hc
        · rfl
        · exact ih _ c hc
      · simp only at hc
        split at hc
        · simp only [List.mem_cons, List.mem_singleton, List.not_mem_nil, or_false] at hc
          rcases hc with rfl | rfl <;> rfl
        · simp only [Run.after, List.mem_append, List.mem_cons, List.not_mem_nil, or_false] at hc
          rcases hc with (rfl | rfl) | hc
          · rfl
          · rfl
          · exact ih _ c hc

/-- The deletion wait only polls the environment and updates the comment. -/
theorem WaitEnvDeleteLoop_calls (d : Deps) (timeoutSeconds : Int) (envName : String)
    (workflowArgs : WorkflowTaskArgs) (polls fuel i : Nat) :
    ∀ c ∈ (WaitEnvDeleteLoop d timeoutSeconds envName workflowArgs polls fuel i).calls,
      c.isPoll = true := by
  induction fuel generalizing i with
  | zero => simp [WaitEnvDeleteLoop]
  | succ fuel ih =>
    intro c hc
    unfold WaitEnvDeleteLoop at hc
    split at hc
    · simp at hc
    · simp only at hc
      split at hc
      · simp only [List.mem_cons, List.mem_singleton, List.not_mem_nil, or_false] at hc
        rcases hc with rfl | rfl <;> rfl
      · simp only [Run.after, List.mem_append, List.mem_cons, List.not_mem_nil, or_false] at hc
        rcases hc with (rfl | rfl) | hc
        · rfl
        · rfl
        · exact ih _ c hc

/-- The only error of the creation wait is the timeout error of line 520. -/
theorem WaitEnvCreateLoop_error (d : Deps) (timeoutSeconds : Int) (envName : String)
    (workflowArgs : WorkflowTaskArgs) (fuel i : Nat) (err : Error) (polls : Nat)
    (h : (WaitEnvCreateLoop d timeoutSeconds envName workflowArgs fuel i).result
      = some (some err, polls)) :
    err = waitEnvCreateTimeoutError timeoutSeconds envName workflowArgs := by
  induction fuel generalizing i with
  | zero => simp [WaitEnvCreateLoop] at h
  | succ fuel ih =>
    unfold WaitEnvCreateLoop at h
    split at h
    · simp at h
      exact h.1.symm
    · split at h
      · exact ih _ h
      · simp only at h
        split at h
        · simp at h
        · exact ih _ h

/-- The creation wait times out: when the flag is read as set at iteration
`i + k` and up to then it was unset and the environment was not ready, the
loop started at iteration `i` returns the timeout error, given more than `k`
iterations of fuel. -/
theorem WaitEnvCreateLoop_timeout (d : Deps) (timeoutSeconds : Int) (envName : String)
    (workflowArgs : WorkflowTaskArgs) (k : Nat) :
    ∀ fuel i, k < fuel →
      (∀ j, j < k → d.createTimeout (i + j) = false ∧
        ∀ status, d.GetProduct d.SystemUser envName workflowArgs.ProductTmplName (i + j)
          = .ok status → envReady d status = false) →
      d.createTimeout (i + k) = true →
      (WaitEnvCreateLoop d timeoutSeconds envName workflowArgs fuel i).result
        = some (some (waitEnvCreateTimeoutError timeoutSeconds envName workflowArgs), i + k) := by
  induction k with
  | zero =>
    intro fuel i hfuel _ hflag
    obtain ⟨fuel, rfl⟩ : ∃ n, fuel = n + 1 := ⟨fuel - 1, by omega⟩
    simp only [Nat.add_zero] at hflag
    simp [WaitEnvCreateLoop, hflag]
  | succ k ih =>
    intro fuel i hfuel hbefore hflag
    obtain ⟨fuel, rfl⟩ : ∃ n, fuel = n + 1 := ⟨fuel - 1, by omega⟩
    have h0 := hbefore 0 (by omega)
    simp only [Nat.add_zero] at h0
    have hrest : (WaitEnvCreateLoop d timeoutSeconds envName workflowArgs fuel (i + 1)).result
        = some (some (waitEnvCreateTimeoutError timeoutSeconds envName workflowArgs), i + (k + 1)) := by
      have := ih fuel (i + 1) (by omega)
        (fun j hj => by
          have := hbefore (j + 1) (by omega)
          rwa [show i + (j + 1) = i + 1 + j by omega] at this)
        (by rwa [show i + (k + 1) = i + 1 + k by omega] at hflag)
      rwa [show i + 1 + k = i + (k + 1) by omega] at this
    unfold WaitEnvCreateLoop
    rw [if_neg (by simp [h0.1])]
    split
    · exact hrest
    · rename_i status hstatus
      simp only [h0.2 status hstatus, Bool.false_eq_true, if_false]
      exact hrest

/-- C7: if `WaitEnvCreate` returns an error, `CreateEnvAndTaskByPR` returns
that error, which is the timeout error, without a call to `CreateWorkflowTask`
and without a call to `DeleteProduct`: no task is created and the environment
is not deleted.  And `WaitEnvCreate` does return that error when the
environment is not ready before the timeout flag is read as set at iteration
`k`, given more than `k` iterations of fuel. -/
theorem C7_create_timeout_aborts (d : Deps) (fuel : Nat) (workflowArgs : WorkflowTaskArgs)
    (prID : Int) (requestID : String) (baseProduct : Product)
    (hfind : d.ProductFind workflowArgs.ProductTmplName workflowArgs.BaseNamespace
      = .ok baseProduct)
    (hcreate : d.CreateProduct d.SystemUser requestID
      (cloneBaseProduct d baseProduct
        (match baseProduct.Render with
          | some render => d.RenderSetFind render.Name render.Revision
          | none => none)
        (prEnvName prID (d.GetRandomNumString 3) (d.GetRandomString 3)) workflowArgs) = none) :
    (∀ err polls,
      (WaitEnvCreate d fuel d.ServiceStartTimeout
        (prEnvName prID (d.GetRandomNumString 3) (d.GetRandomString 3)) workflowArgs).result
          = some (some err, polls) →
      err = waitEnvCreateTimeoutError d.ServiceStartTimeout
        (prEnvName prID (d.GetRandomNumString 3) (d.GetRandomString 3)) workflowArgs ∧
      (CreateEnvAndTaskByPR d fuel workflowArgs prID requestID).result
        = some ⟨some err, workflowArgs⟩ ∧
      ∀ c ∈ (CreateEnvAndTaskByPR d fuel workflowArgs prID requestID).calls,
        c.isCreateWorkflowTask = false ∧ c.isDeleteProduct = false) ∧
    (∀ k, k < fuel →
      (∀ j, j < k → d.createTimeout j = false ∧
        ∀ status, d.GetProduct d.SystemUser
          (prEnvName prID (d.GetRandomNumString 3) (d.GetRandomString 3))
          workflowArgs.ProductTmplName j = .ok status → envReady d status = false) →
      d.createTimeout k = true →
      (WaitEnvCreate d fuel d.ServiceStartTimeout
        (prEnvName prID (d.GetRandomNumString 3) (d.GetRandomString 3)) workflowArgs).result
          = some (some (waitEnvCreateTimeoutError d.ServiceStartTimeout
            (prEnvName prID (d.GetRandomNumString 3) (d.GetRandomString 3)) workflowArgs), k)) := by
  constructor
  · intro err polls hwait
    refine ⟨WaitEnvCreateLoop_error d _ _ _ fuel 0 err polls hwait, ?_, ?_⟩
    · unfold CreateEnvAndTaskByPR
      simp only [hfind, hcreate, hwait]
    · intro c hc
      unfold CreateEnvAndTaskByPR at hc
      simp only [hfind, hcreate, hwait] at hc
      simp only [List.mem_append, List.mem_cons, List.not_mem_nil, or_false] at hc
      rcases hc with ((((rfl | rfl) | hc) | rfl) | hc)
      · exact ⟨rfl, rfl⟩
      · exact ⟨rfl, rfl⟩
      · cases hr : baseProduct.Render <;> simp [hr] at hc
        subst hc
        exact ⟨rfl, rfl⟩
      · exact ⟨rfl, rfl⟩
      · have hq := isPoll_quiet c (WaitEnvCreateLoop_calls d _ _ _ fuel 0 c hc)
        exact ⟨hq.1, hq.2.1⟩
  · intro k hk hbefore hflag
    have := WaitEnvCreateLoop_timeout d d.ServiceStartTimeout
      (prEnvName prID (d.GetRandomNumString 3) (d.GetRandomString 3)) workflowArgs k fuel 0 hk
      (fun j hj => by simpa using hbefore j hj) (by simpa using hflag)
    simpa [WaitEnvCreate] using this

/-- C7 on an environment that stays in the status `Creating` while the
timeout flag is set from iteration 2 on: the orchestration of merge request 7
returns the timeout error for the environment `pr-7-123abc` and calls neither
`CreateWorkflowTask` nor `DeleteProduct`. -/
theorem C7_create_timeout_aborts_witness :
    createTimeoutDeps.ProductFind (sampleEnvArgs "always").ProductTmplName
        (sampleEnvArgs "always").BaseNamespace = .ok sampleBaseProduct ∧
      (WaitEnvCreate createTimeoutDeps 5 300 "pr-7-123abc" (sampleEnvArgs "always")).result
        = some (some (waitEnvCreateTimeoutError 300 "pr-7-123abc" (sampleEnvArgs "always")), 2) ∧
      (CreateEnvAndTaskByPR createTimeoutDeps 5 (sampleEnvArgs "always") 7 "req").result
        = some ⟨some (waitEnvCreateTimeoutError 300 "pr-7-123abc" (sampleEnvArgs "always")),
            sampleEnvArgs "always"⟩ ∧
      ∀ c ∈ (CreateEnvAndTaskByPR createTimeoutDeps 5 (sampleEnvArgs "always") 7 "req").calls,
        c.isCreateWorkflowTask = false ∧ c.isDeleteProduct = false :=
  have hwait := (C7_create_timeout_aborts createTimeoutDeps 5 (sampleEnvArgs "always") 7 "req"
    sampleBaseProduct rfl rfl).2 2 (by decide)
    (fun j hj => ⟨by simp only [createTimeoutDeps, decide_eq_false_iff_not]; omega,
      fun status hstatus => by
        have hs : status = "Creating" := by
          simp only [createTimeoutDeps, Except.ok.injEq] at hstatus
          exact hstatus.symm
        subst hs
        decide⟩)
    (by decide)
  ⟨rfl, hwait,
    ((C7_create_timeout_aborts createTimeoutDeps 5 (sampleEnvArgs "always") 7 "req"
      sampleBaseProduct rfl rfl).1 _ _ hwait).2⟩

/-- The task poll only looks the task up. -/
theorem pollTaskStatus_calls (d : Deps) (taskResp : CreateTaskResp) (fuel i : Nat) :
    ∀ c ∈ (pollTaskStatus d taskResp fuel i).calls, c.isPoll = true := by
  induction fuel generalizing i with
  | zero => simp [pollTaskStatus]
  | succ fuel ih =>
    intro c hc
    unfold pollTaskStatus at hc
    split at hc
    · simp only [Run.after, List.mem_append, List.mem_singleton] at hc
      rcases hc with rfl | hc
      · rfl
      · exact ih _ c hc
    · split at hc
      · simp only [List.mem_singleton] at hc
        subst hc
        rfl
      · simp only [Run.after, List.mem_append, List.mem_singleton] at hc
        rcases hc with rfl | hc
        · rfl
        · exact ih _ c hc

/-- The task poll ends with the first terminal status: when the lookup of poll
`i + k` finds the terminal status `taskStatus` and no earlier lookup found a
terminal one, the loop started at poll `i` returns `taskStatus`, given more
than `k` iterations of fuel. -/
theorem pollTaskStatus_reaches (d : Deps) (taskResp : CreateTaskResp) (taskStatus : String)
    (k : Nat) :
    ∀ fuel i, k < fuel →
      (∀ j, j < k → ∀ status, d.TaskFind taskResp.TaskID taskResp.PipelineName (i + j)
        = .ok status → taskTerminal d status = false) →
      d.TaskFind taskResp.TaskID taskResp.PipelineName (i + k) = .ok taskStatus →
      taskTerminal d taskStatus = true →
      (pollTaskStatus d taskResp fuel i).result = some taskStatus := by
  induction k with
  | zero =>
    intro fuel i hfuel _ hfound hterm
    obtain ⟨fuel, rfl⟩ : ∃ n, fuel = n + 1 := ⟨fuel - 1, by omega⟩
    simp only [Nat.add_zero] at hfound
    simp [pollTaskStatus, hfound, hterm]
  | succ k ih =>
    intro fuel i hfuel hbefore hfound hterm
    obtain ⟨fuel, rfl⟩ : ∃ n, fuel = n + 1 := ⟨fuel - 1, by omega⟩
    have h0 := hbefore 0 (by omega)
    simp only [Nat.add_zero] at h0
    have hrest : (pollTaskStatus d taskResp fuel (i + 1)).result = some taskStatus :=
      ih fuel (i + 1) (by omega)
        (fun j hj => by
          have := hbefore (j + 1) (by omega)
          rwa [show i + (j + 1) = i + 1 + j by omega] at this)
        (by rwa [show i + (k + 1) = i + 1 + k by omega] at hfound) hterm
    unfold pollTaskStatus
    split
    · exact hrest
    · rename_i status hstatus
      simp only [h0 status hstatus, Bool.false_eq_true, if_false]
      exact hrest

/-- The test of line 496, spelled out. -/
theorem recycles_iff (d : Deps) (workflowArgs : WorkflowTaskArgs) (taskStatus : String) :
    recycles d workflowArgs taskStatus = true ↔
      (workflowArgs.EnvRecyclePolicy = d.EnvRecyclePolicyAlways ∨
        (workflowArgs.EnvRecyclePolicy = d.EnvRecyclePolicyTaskStatus ∧
          taskStatus = d.StatusPassed)) := by
  simp [recycles]

/-- Lines 496-508 call `DeleteProduct` exactly when the test of line 496
holds, and otherwise make no call and return nil. -/
theorem recycleEnv_deletes_iff (d : Deps) (fuel : Nat) (timeoutSeconds : Int) (envName : String)
    (workflowArgs : WorkflowTaskArgs) (requestID taskStatus : String) (polls : Nat) :
    ((∃ c ∈ (recycleEnv d fuel timeoutSeconds envName workflowArgs requestID taskStatus
        polls).calls, c.isDeleteProduct = true) ↔ recycles d workflowArgs taskStatus = true) ∧
      (recycles d workflowArgs taskStatus = false →
        recycleEnv d fuel timeoutSeconds envName workflowArgs requestID taskStatus polls
          = { calls := [], result := some none }) := by
  unfold recycleEnv
  cases h : recycles d workflowArgs taskStatus
  · simp
  · simp only [if_true, iff_true]
    refine ⟨?_, fun hf => Bool.noConfusion hf⟩
    split
    · exact ⟨_, List.mem_singleton.mpr rfl, rfl⟩
    · exact ⟨_, List.mem_append_left _ (List.mem_singleton.mpr rfl), rfl⟩

/-- Lines 496-508 delete the environment `envName` of the product of the
task: when the test of line 496 holds, the call
`DeleteProduct(SystemUser, envName, ProductTmplName, requestID)` is made, and
no other call to `DeleteProduct` is ever made. -/
theorem recycleEnv_delete_call (d : Deps) (fuel : Nat) (timeoutSeconds : Int) (envName : String)
    (workflowArgs : WorkflowTaskArgs) (requestID taskStatus : String) (polls : Nat) :
    (recycles d workflowArgs taskStatus = true →
      Call.DeleteProduct d.SystemUser envName workflowArgs.ProductTmplName requestID ∈
        (recycleEnv d fuel timeoutSeconds envName workflowArgs requestID taskStatus polls).calls) ∧
    (∀ c ∈ (recycleEnv d fuel timeoutSeconds envName workflowArgs requestID taskStatus
        polls).calls,
      c.isDeleteProduct = true →
        c = Call.DeleteProduct d.SystemUser envName workflowArgs.ProductTmplName requestID) ∧
    (recycleEnv d fuel timeoutSeconds envName workflowArgs requestID taskStatus polls).calls.countP
        Call.isDeleteProduct = if recycles d workflowArgs taskStatus = true then 1 else 0 := by
  have hwait : ∀ c ∈ (WaitEnvDelete d fuel timeoutSeconds envName workflowArgs polls).calls,
      c.isDeleteProduct = false := fun c hc =>
    (isPoll_quiet c (WaitEnvDeleteLoop_calls d _ _ _ _ fuel 0 c hc)).2.1
  have hcount : (WaitEnvDelete d fuel timeoutSeconds envName workflowArgs polls).calls.countP
      Call.isDeleteProduct = 0 :=
    List.countP_eq_zero.mpr (fun c hc => by simp [hwait c hc])
  unfold recycleEnv
  cases h : recycles d workflowArgs taskStatus
  · simp
  · simp only [if_true]
    split
    · refine ⟨fun _ => List.mem_singleton.mpr rfl, ?_, rfl⟩
      intro c hc _
      exact List.mem_singleton.mp hc
    · refine ⟨fun _ => List.mem_append_left _ (List.mem_singleton.mpr rfl), ?_, ?_⟩
      · intro c hc hdel
        simp only [Run.after, List.mem_append, List.mem_singleton] at hc
        rcases hc with hc | hc
        · exact hc
        · rw [hwait c hc] at hdel
          exact Bool.noConfusion hdel
      · simp only [Run.after, List.countP_append, hcount]
        rfl

/-- A run of `CreateEnvAndTaskByPR` whose task reaches a terminal status:
the calls up to that point create the environment of line 457 and delete
nothing, and the run ends with lines 496-508 on that environment. -/
theorem CreateEnvAndTaskByPR_of_terminal (d : Deps) (fuel : Nat)
    (workflowArgs : WorkflowTaskArgs) (prID : Int) (requestID : String) (baseProduct : Product)
    (polls : Nat) (taskResp : CreateTaskResp) (k : Nat) (taskStatus : String)
    (hfind : d.ProductFind workflowArgs.ProductTmplName workflowArgs.BaseNamespace
      = .ok baseProduct)
    (hcreate : d.CreateProduct d.SystemUser requestID
      (cloneBaseProduct d baseProduct
        (match baseProduct.Render with
          | some render => d.RenderSetFind render.Name render.Revision
          | none => none)
        (prEnvName prID (d.GetRandomNumString 3) (d.GetRandomString 3)) workflowArgs) = none)
    (hwait : (WaitEnvCreate d fuel d.ServiceStartTimeout
      (prEnvName prID (d.GetRandomNumString 3) (d.GetRandomString 3)) workflowArgs).result
        = some (none, polls))
    (htask : d.CreateWorkflowTask
      { workflowArgs with
        Namespace := prEnvName prID (d.GetRandomNumString 3) (d.GetRandomString 3) }
      d.WebhookTaskCreator d.AnonymousUserID = .ok taskResp)
    (hbefore : ∀ j, j < k → ∀ status,
      d.TaskFind taskResp.TaskID taskResp.PipelineName j = .ok status →
        taskTerminal d status = false)
    (hfound : d.TaskFind taskResp.TaskID taskResp.PipelineName k = .ok taskStatus)
    (hterminal : taskStatus = d.StatusPassed ∨ taskStatus = d.StatusFailed ∨
      taskStatus = d.StatusTimeout ∨ taskStatus = d.StatusCancelled)
    (hfuel : k < fuel) :
    ∃ before : List Call,
      (∀ c ∈ before, c.isDeleteProduct = false) ∧
      Call.CreateProduct d.SystemUser requestID
        (cloneBaseProduct d baseProduct
          (match baseProduct.Render with
            | some render => d.RenderSetFind render.Name render.Revision
            | none => none)
          (prEnvName prID (d.GetRandomNumString 3) (d.GetRandomString 3)) workflowArgs) ∈ before ∧
      (CreateEnvAndTaskByPR d fuel workflowArgs prID requestID).calls =
        before ++ (recycleEnv d fuel d.ServiceStartTimeout
          (prEnvName prID (d.GetRandomNumString 3) (d.GetRandomString 3))
          { workflowArgs with
            Namespace := prEnvName prID (d.GetRandomNumString 3) (d.GetRandomString 3) }
          requestID taskStatus polls).calls ∧
      (CreateEnvAndTaskByPR d fuel workflowArgs prID requestID).result =
        (recycleEnv d fuel d.ServiceStartTimeout
          (prEnvName prID (d.GetRandomNumString 3) (d.GetRandomString 3))
          { workflowArgs with
            Namespace := prEnvName prID (d.GetRandomNumString 3) (d.GetRandomString 3) }
          requestID taskStatus polls).result.map
          (fun err =>
            ⟨err, { workflowArgs with
              Namespace := prEnvName prID (d.GetRandomNumString 3) (d.GetRandomString 3) }⟩) := by
  have hterm : taskTerminal d taskStatus = true := by
    simp only [taskTerminal, Bool.or_eq_true, decide_eq_true_eq]
    tauto
  have hpoll : (pollTaskStatus d taskResp fuel 0).result = some taskStatus :=
    pollTaskStatus_reaches d taskResp taskStatus k fuel 0 hfuel
      (fun j hj => by simpa using hbefore j hj) (by simpa using hfound) hterm
  unfold CreateEnvAndTaskByPR
  simp only [hfind, hcreate, hwait, htask, hpoll]
  refine ⟨_, ?_, ?_, rfl, by first | rfl | trivial⟩
  · intro c hc
    simp only [List.mem_append, List.mem_cons, List.not_mem_nil, or_false] at hc
    rcases hc with ((((((rfl | rfl) | hc) | rfl) | hc) | rfl) | hc)
    · rfl
    · rfl
    · cases hr : baseProduct.Render <;> simp [hr] at hc
      subst hc
      rfl
    · rfl
    · exact (isPoll_quiet c (WaitEnvCreateLoop_calls d _ _ _ fuel 0 c hc)).2.1
    · rfl
    · exact (isPoll_quiet c (pollTaskStatus_calls d taskResp fuel 0 c hc)).2.1
  · simp

/-- C6: in `CreateEnvAndTaskByPR`, once the created task reaches the terminal
status `taskStatus` (one of Passed, Failed, Timeout, Cancelled, found at poll
`k`, no earlier poll having found a terminal status), the environment is
deleted if and only if the recycle policy is Always, or the policy is
`EnvRecyclePolicyTaskStatus` and the status is Passed.  The environment is the
one of the PR: the run has created the product with the environment name of
line 457, the deletion is the one call
`DeleteProduct(SystemUser, that name, ProductTmplName, requestID)`, and no
other call to `DeleteProduct` is made.  In every other case `DeleteProduct` is
not called at all and the function returns nil. -/
theorem C6_recycle_policy (d : Deps) (fuel : Nat) (workflowArgs : WorkflowTaskArgs)
    (prID : Int) (requestID : String) (baseProduct : Product) (polls : Nat)
    (taskResp : CreateTaskResp) (k : Nat) (taskStatus : String)
    (hfind : d.ProductFind workflowArgs.ProductTmplName workflowArgs.BaseNamespace
      = .ok baseProduct)
    (hcreate : d.CreateProduct d.SystemUser requestID
      (cloneBaseProduct d baseProduct
        (match baseProduct.Render with
          | some render => d.RenderSetFind render.Name render.Revision
          | none => none)
        (prEnvName prID (d.GetRandomNumString 3) (d.GetRandomString 3)) workflowArgs) = none)
    (hwait : (WaitEnvCreate d fuel d.ServiceStartTimeout
      (prEnvName prID (d.GetRandomNumString 3) (d.GetRandomString 3)) workflowArgs).result
        = some (none, polls))
    (htask : d.CreateWorkflowTask
      { workflowArgs with
        Namespace := prEnvName prID (d.GetRandomNumString 3) (d.GetRandomString 3) }
      d.WebhookTaskCreator d.AnonymousUserID = .ok taskResp)
    (hbefore : ∀ j, j < k → ∀ status,
      d.TaskFind taskResp.TaskID taskResp.PipelineName j = .ok status →
        taskTerminal d status = false)
    (hfound : d.TaskFind taskResp.TaskID taskResp.PipelineName k = .ok taskStatus)
    (hterminal : taskStatus = d.StatusPassed ∨ taskStatus = d.StatusFailed ∨
      taskStatus = d.StatusTimeout ∨ taskStatus = d.StatusCancelled)
    (hfuel : k < fuel) :
    ((∃ c ∈ (CreateEnvAndTaskByPR d fuel workflowArgs prID requestID).calls,
        c.isDeleteProduct = true) ↔
      (workflowArgs.EnvRecyclePolicy = d.EnvRecyclePolicyAlways ∨
        (workflowArgs.EnvRecyclePolicy = d.EnvRecyclePolicyTaskStatus ∧
          taskStatus = d.StatusPassed))) ∧
    (¬ (workflowArgs.EnvRecyclePolicy = d.EnvRecyclePolicyAlways ∨
        (workflowArgs.EnvRecyclePolicy = d.EnvRecyclePolicyTaskStatus ∧
          taskStatus = d.StatusPassed)) →
      (CreateEnvAndTaskByPR d fuel workflowArgs prID requestID).result
        = some ⟨none,
            { workflowArgs with
              Namespace := prEnvName prID (d.GetRandomNumString 3) (d.GetRandomString 3) }⟩) ∧
    (Call.DeleteProduct d.SystemUser
        (prEnvName prID (d.GetRandomNumString 3) (d.GetRandomString 3))
        workflowArgs.ProductTmplName requestID ∈
          (CreateEnvAndTaskByPR d fuel workflowArgs prID requestID).calls ↔
      (workflowArgs.EnvRecyclePolicy = d.EnvRecyclePolicyAlways ∨
        (workflowArgs.EnvRecyclePolicy = d.EnvRecyclePolicyTaskStatus ∧
          taskStatus = d.StatusPassed))) ∧
    (∀ c ∈ (CreateEnvAndTaskByPR d fuel workflowArgs prID requestID).calls,
      c.isDeleteProduct = true →
        c = Call.DeleteProduct d.SystemUser
          (prEnvName prID (d.GetRandomNumString 3) (d.GetRandomString 3))
          workflowArgs.ProductTmplName requestID) ∧
    ((CreateEnvAndTaskByPR d fuel workflowArgs prID requestID).calls.countP Call.isDeleteProduct
      = if workflowArgs.EnvRecyclePolicy = d.EnvRecyclePolicyAlways ∨
          (workflowArgs.EnvRecyclePolicy = d.EnvRecyclePolicyTaskStatus ∧
            taskStatus = d.StatusPassed) then 1 else 0) ∧
    (∃ product,
      Call.CreateProduct d.SystemUser requestID product ∈
          (CreateEnvAndTaskByPR d fuel workflowArgs prID requestID).calls ∧
        product.EnvName = prEnvName prID (d.GetRandomNumString 3) (d.GetRandomString 3)) := by
  obtain ⟨before, hquiet, hcreated, hcalls, hresult⟩ := CreateEnvAndTaskByPR_of_terminal d fuel
    workflowArgs prID requestID baseProduct polls taskResp k taskStatus hfind hcreate hwait htask
    hbefore hfound hterminal hfuel
  have hrec := recycleEnv_deletes_iff d fuel d.ServiceStartTimeout
    (prEnvName prID (d.GetRandomNumString 3) (d.GetRandomString 3))
    { workflowArgs with
      Namespace := prEnvName prID (d.GetRandomNumString 3) (d.GetRandomString 3) }
    requestID taskStatus polls
  have hdel := recycleEnv_delete_call d fuel d.ServiceStartTimeout
    (prEnvName prID (d.GetRandomNumString 3) (d.GetRandomString 3))
    { workflowArgs with
      Namespace := prEnvName prID (d.GetRandomNumString 3) (d.GetRandomString 3) }
    requestID taskStatus polls
  have hiff := recycles_iff d
    { workflowArgs with
      Namespace := prEnvName prID (d.GetRandomNumString 3) (d.GetRandomString 3) } taskStatus
  simp only at hiff hdel
  have hnone : before.countP Call.isDeleteProduct = 0 :=
    List.countP_eq_zero.mpr (fun c hc => by simp [hquiet c hc])
  rw [hcalls, hresult]
  refine ⟨?_, ?_, ?_, ?_, ?_, ?_⟩
  · rw [← hiff, ← hrec.1]
    constructor
    · rintro ⟨c, hc, hkind⟩
      rcases List.mem_append.mp hc with hc | hc
      · rw [hquiet c hc] at hkind
        exact Bool.noConfusion hkind
      · exact ⟨c, hc, hkind⟩
    · rintro ⟨c, hc, hkind⟩
      exact ⟨c, List.mem_append_right _ hc, hkind⟩
  · intro hno
    have hfalse : recycles d
        { workflowArgs with
          Namespace := prEnvName prID (d.GetRandomNumString 3) (d.GetRandomString 3) }
        taskStatus = false := by
      rw [← Bool.not_eq_true, hiff]
      exact hno
    rw [hrec.2 hfalse]
    rfl
  · rw [← hiff]
    constructor
    · intro hmem
      rcases List.mem_append.mp hmem with hc | hc
      · exact Bool.noConfusion (hquiet _ hc)
      · by_contra hfalse
        rw [hrec.2 (by simpa using hfalse)] at hc
        simp at hc
    · intro hyes
      exact List.mem_append_right _ (hdel.1 hyes)
  · intro c hc hkind
    rcases List.mem_append.mp hc with hc | hc
    · rw [hquiet c hc] at hkind
      exact Bool.noConfusion hkind
    · exact hdel.2.1 c hc hkind
  · rw [List.countP_append, hnone, hdel.2.2, Nat.zero_add]
    simp only [hiff]
  · exact ⟨_, List.mem_append_left _ hcreated, rfl⟩

/-- C6 on the PR number 7 and a task that is running at the first poll and
has failed at the second: with the policy `success`
(`EnvRecyclePolicyTaskStatus`) the environment is kept and the function
returns nil, with the policy `always` the environment `pr-7-123abc`, which the
run has created, is deleted by the one call
`DeleteProduct(system, pr-7-123abc, shop, req)`. -/
theorem C6_recycle_policy_witness :
    ((¬ ∃ c ∈ (CreateEnvAndTaskByPR (taskEndsDeps "failed") 5 (sampleEnvArgs "success") 7
        "req").calls, c.isDeleteProduct = true) ∧
      (CreateEnvAndTaskByPR (taskEndsDeps "failed") 5 (sampleEnvArgs "success") 7 "req").result
        = some ⟨none, { sampleEnvArgs "success" with Namespace := "pr-7-123abc" }⟩) ∧
    (∃ c ∈ (CreateEnvAndTaskByPR (taskEndsDeps "failed") 5 (sampleEnvArgs "always") 7
        "req").calls, c.isDeleteProduct = true) ∧
    Call.DeleteProduct "system" "pr-7-123abc" "shop" "req" ∈
      (CreateEnvAndTaskByPR (taskEndsDeps "failed") 5 (sampleEnvArgs "always") 7 "req").calls ∧
    (∀ c ∈ (CreateEnvAndTaskByPR (taskEndsDeps "failed") 5 (sampleEnvArgs "always") 7
        "req").calls,
      c.isDeleteProduct = true → c = Call.DeleteProduct "system" "pr-7-123abc" "shop" "req") ∧
    (CreateEnvAndTaskByPR (taskEndsDeps "failed") 5 (sampleEnvArgs "always") 7
      "req").calls.countP Call.isDeleteProduct = 1 ∧
    (CreateEnvAndTaskByPR (taskEndsDeps "failed") 5 (sampleEnvArgs "success") 7
      "req").calls.countP Call.isDeleteProduct = 0 ∧
    Call.CreateProduct "system" "req" (sampleClonedProduct 7) ∈
      (CreateEnvAndTaskByPR (taskEndsDeps "failed") 5 (sampleEnvArgs "always") 7 "req").calls :=
  have hbefore : ∀ j, j < 1 → ∀ status,
      (taskEndsDeps "failed").TaskFind 1 "wf" j = .ok status →
        taskTerminal (taskEndsDeps "failed") status = false := fun j hj status hstatus => by
    obtain rfl : j = 0 := by omega
    have hs : status = "running" := by
      simp only [taskEndsDeps, if_true, Except.ok.injEq] at hstatus
      exact hstatus.symm
    subst hs
    decide
  have hkeep := C6_recycle_policy (taskEndsDeps "failed") 5 (sampleEnvArgs "success") 7 "req"
    sampleBaseProduct 1 { TaskID := 1, PipelineName := "wf" } 1 "failed" rfl rfl rfl rfl hbefore
    rfl (Or.inr (Or.inl rfl)) (by decide)
  have hdrop := C6_recycle_policy (taskEndsDeps "failed") 5 (sampleEnvArgs "always") 7 "req"
    sampleBaseProduct 1 { TaskID := 1, PipelineName := "wf" } 1 "failed" rfl rfl rfl rfl hbefore
    rfl (Or.inr (Or.inl rfl)) (by decide)
  ⟨⟨fun h => absurd (hkeep.1.mp h) (by decide), hkeep.2.1 (by decide)⟩,
    hdrop.1.mpr (Or.inl rfl),
    hdrop.2.2.1.mpr (Or.inl rfl),
    hdrop.2.2.2.1,
    hdrop.2.2.2.2.1.trans (if_pos (Or.inl rfl)),
    hkeep.2.2.2.2.1.trans (if_neg (by decide)),
    by decide⟩

/-! ### The discussion-thread store -/

/-- A lookup that finds nothing: no record of the collection has the key. -/
theorem findFrom_none (opt : DiffNoteFindOpt) (coll : List DiffNote) (i : Nat)
    (h : DiffNoteColl.findFrom opt coll i = none) : coll.filter opt.selects = [] := by
  induction coll generalizing i with
  | nil => rfl
  | cons dn rest ih =>
    unfold DiffNoteColl.findFrom at h
    split at h
    · exact Option.noConfusion h
    · rename_i hsel
      rw [List.filter_cons_of_neg hsel]
      exact ih _ h

/-- A lookup that finds a record: the record has the key, so the collection
holds at least one record with the key. -/
theorem findFrom_some (opt : DiffNoteFindOpt) (coll : List DiffNote) (i id : Nat) (dn : DiffNote)
    (h : DiffNoteColl.findFrom opt coll i = some (id, dn)) :
    opt.selects dn = true ∧ 1 ≤ (coll.filter opt.selects).length := by
  induction coll generalizing i with
  | nil => exact Option.noConfusion h
  | cons x rest ih =>
    unfold DiffNoteColl.findFrom at h
    split at h
    · rename_i hsel
      simp only [Option.some.injEq, Prod.mk.injEq] at h
      obtain ⟨-, rfl⟩ := h
      refine ⟨hsel, ?_⟩
      rw [List.filter_cons_of_pos hsel]
      simp
    · rename_i hsel
      rw [List.filter_cons_of_neg hsel]
      exact ih _ h

/-- After a record with the key is added to a collection without one, the
lookup finds that record. -/
theorem findFrom_append (opt : DiffNoteFindOpt) (coll : List DiffNote) (i : Nat) (dn : DiffNote)
    (h : DiffNoteColl.findFrom opt coll i = none) (hsel : opt.selects dn = true) :
    DiffNoteColl.findFrom opt (coll ++ [dn]) i = some (i + coll.length, dn) := by
  induction coll generalizing i with
  | nil => simp [DiffNoteColl.findFrom, hsel]
  | cons x rest ih =>
    unfold DiffNoteColl.findFrom at h
    split at h
    · exact Option.noConfusion h
    · rename_i hx
      have hstep : DiffNoteColl.findFrom opt (x :: rest ++ [dn]) i
          = DiffNoteColl.findFrom opt (rest ++ [dn]) (i + 1) := by
        show DiffNoteColl.findFrom opt (x :: (rest ++ [dn])) i = _
        simp only [DiffNoteColl.findFrom, hx, Bool.false_eq_true, if_false]
      rw [hstep, ih _ h, List.length_cons]
      congr 2
      omega

/-- After the record that the lookup finds is changed by a function that keeps
the key, the lookup finds the changed record at the same position. -/
theorem findFrom_modifyAt (opt : DiffNoteFindOpt) (f : DiffNote → DiffNote)
    (hf : ∀ x, opt.selects (f x) = opt.selects x) (coll : List DiffNote) (i id : Nat)
    (dn : DiffNote) (h : DiffNoteColl.findFrom opt coll i = some (id, dn)) :
    i ≤ id ∧ DiffNoteColl.findFrom opt (DiffNoteColl.modifyAt f coll (id - i)) i
      = some (id, f dn) := by
  induction coll generalizing i with
  | nil => exact Option.noConfusion h
  | cons x rest ih =>
    unfold DiffNoteColl.findFrom at h
    split at h
    · rename_i hsel
      simp only [Option.some.injEq, Prod.mk.injEq] at h
      obtain ⟨rfl, rfl⟩ := h
      refine ⟨le_refl _, ?_⟩
      simp [DiffNoteColl.modifyAt, DiffNoteColl.findFrom, hf, hsel]
    · rename_i hsel
      obtain ⟨hle, hfind⟩ := ih _ h
      refine ⟨by omega, ?_⟩
      obtain ⟨k, hk⟩ : ∃ k, id - i = k + 1 := ⟨id - i - 1, by omega⟩
      rw [hk]
      simp only [DiffNoteColl.modifyAt, DiffNoteColl.findFrom, hsel, Bool.false_eq_true, if_false]
      rw [show k = id - (i + 1) by omega]
      exact hfind

/-- Changing one record by a function that keeps the key keeps the number of
records with the key. -/
theorem filter_modifyAt_length (opt : DiffNoteFindOpt) (f : DiffNote → DiffNote)
    (hf : ∀ x, opt.selects (f x) = opt.selects x) (coll : List DiffNote) (id : Nat) :
    ((DiffNoteColl.modifyAt f coll id).filter opt.selects).length
      = (coll.filter opt.selects).length := by
  induction coll generalizing id with
  | nil => rfl
  | cons x rest ih =>
    cases id with
    | zero =>
      simp only [DiffNoteColl.modifyAt, List.filter_cons, hf]
      split <;> simp
    | succ id =>
      simp only [DiffNoteColl.modifyAt, List.filter_cons]
      split <;> simp [ih]

/-- The call of `InitDiffNote` on a thread that is up to date: when the
lookup finds a record with the head commit of the event, nothing changes and
the only calls are the codehost lookup and the record lookup. -/
theorem InitDiffNote_of_synchronised (d : Deps) (ev : MergeEvent) (mainRepo : MainHookRepo)
    (coll : DiffNoteColl) (detail : Detail) (id : Nat) (dn : DiffNote)
    (hdetail : d.GetCodehostDetail mainRepo.CodehostID = .ok detail)
    (hfault : d.DiffNoteFindErr (diffNoteKey ev mainRepo) = none)
    (hfind : DiffNoteColl.findFrom (diffNoteKey ev mainRepo) coll 0 = some (id, dn))
    (hcommit : dn.CommitID = ev.ObjectAttributes.LastCommit.ID) :
    InitDiffNote d ev mainRepo coll =
      ⟨none, coll,
        [Call.GetCodehostDetail mainRepo.CodehostID, Call.DiffNoteFind (diffNoteKey ev mainRepo)]⟩ := by
  unfold diffNoteKey at hfault hfind
  unfold InitDiffNote
  simp [hdetail, DiffNoteColl.Find, hfault, hfind, hcommit, diffNoteKey]

/-- The first call of `InitDiffNote` with succeeding collaborators, on a
collection with at most one record for the key: it returns nil and leaves
exactly one record for the key, which the lookup finds and which has the head
commit of the event. -/
theorem InitDiffNote_synchronises (d : Deps) (ev : MergeEvent) (mainRepo : MainHookRepo)
    (coll : DiffNoteColl) (detail : Detail)
    (hcount : (coll.filter (diffNoteKey ev mainRepo).selects).length ≤ 1)
    (hdetail : d.GetCodehostDetail mainRepo.CodehostID = .ok detail)
    (hnote : ∀ projectID mergeRequestID discussionID noteID opt,
      d.UpdateMergeRequestDiscussionNote projectID mergeRequestID discussionID noteID opt = none)
    (hdiscussion : ∀ projectID mergeRequestID body,
      ∃ discussion, d.CreateMergeRequestDiscussion projectID mergeRequestID body = .ok discussion)
    (hfindFault : ∀ opt, d.DiffNoteFindErr opt = none)
    (hupdateFault : ∀ id commitID body resolved,
      d.DiffNoteUpdateErr id commitID body resolved = none)
    (hcreateFault : ∀ diffNote, d.DiffNoteCreateErr diffNote = none) :
    (InitDiffNote d ev mainRepo coll).err = none ∧
      ((InitDiffNote d ev mainRepo coll).coll.filter (diffNoteKey ev mainRepo).selects).length = 1 ∧
      ∃ id dn, DiffNoteColl.findFrom (diffNoteKey ev mainRepo) (InitDiffNote d ev mainRepo coll).coll 0
          = some (id, dn) ∧ dn.CommitID = ev.ObjectAttributes.LastCommit.ID := by
  cases hfind : DiffNoteColl.findFrom (diffNoteKey ev mainRepo) coll 0 with
  | none =>
    obtain ⟨discussion, hdisc⟩ := hdiscussion (mainRepo.RepoOwner ++ "/" ++ mainRepo.RepoName)
      ev.ObjectAttributes.IID "KodeRover CI ?????????..."
    have hnil := findFrom_none _ _ _ hfind
    have hfind0 := hfind
    unfold diffNoteKey at hfind0
    unfold InitDiffNote
    simp only [hdetail, DiffNoteColl.Find, hfindFault, hfind0, hdisc, DiffNoteColl.Create,
      hcreateFault]
    refine ⟨trivial, ?_, ?_⟩
    · rw [List.filter_append, hnil]
      cases discussion.Notes <;> simp [diffNoteKey, DiffNoteFindOpt.selects]
    · refine ⟨_, _, findFrom_append _ _ _ _ hfind ?_, ?_⟩
      · cases discussion.Notes <;> simp [diffNoteKey, DiffNoteFindOpt.selects]
      · cases discussion.Notes <;> rfl
  | some found =>
    obtain ⟨id, dn⟩ := found
    obtain ⟨hsel, hone⟩ := findFrom_some _ _ _ _ _ hfind
    by_cases hcommit : dn.CommitID = ev.ObjectAttributes.LastCommit.ID
    · rw [InitDiffNote_of_synchronised d ev mainRepo coll detail id dn hdetail (hfindFault _)
        hfind hcommit]
      exact ⟨rfl, by simp only; omega, id, dn, hfind, hcommit⟩
    · have hkeep : ∀ x, (diffNoteKey ev mainRepo).selects
          { x with CommitID := ev.ObjectAttributes.LastCommit.ID,
                   Body := "KodeRover CI ?????????...", Resolved := false }
            = (diffNoteKey ev mainRepo).selects x := fun x => rfl
      have hmod := findFrom_modifyAt _ _ hkeep coll 0 id dn hfind
      have hlen := filter_modifyAt_length _ _ hkeep coll id
      have hfind0 := hfind
      unfold diffNoteKey at hfind0
      unfold InitDiffNote
      simp only [hdetail, DiffNoteColl.Find, hfindFault, hfind0, hcommit, if_false, hnote,
        DiffNoteColl.Update, hupdateFault]
      refine ⟨trivial, ?_, _, _, hmod.2, rfl⟩
      rw [hlen]
      omega

/-- C8: `InitDiffNote` is idempotent on the discussion-thread store.  On a
collection with at most one record for the key (codehost id, `owner/name`,
merge-request IID) and with collaborators that succeed, the first call leaves
exactly one record for the key; the second call with the same event returns
nil, leaves the collection as it is, and its only calls are the codehost
lookup and the record lookup: no call to GitLab, no write to the collection,
no second discussion. -/
theorem C8_InitDiffNote_idempotent (d : Deps) (ev : MergeEvent) (mainRepo : MainHookRepo)
    (coll : DiffNoteColl) (detail : Detail)
    (hcount : (coll.filter (diffNoteKey ev mainRepo).selects).length ≤ 1)
    (hdetail : d.GetCodehostDetail mainRepo.CodehostID = .ok detail)
    (hnote : ∀ projectID mergeRequestID discussionID noteID opt,
      d.UpdateMergeRequestDiscussionNote projectID mergeRequestID discussionID noteID opt = none)
    (hdiscussion : ∀ projectID mergeRequestID body,
      ∃ discussion, d.CreateMergeRequestDiscussion projectID mergeRequestID body = .ok discussion)
    (hfindFault : ∀ opt, d.DiffNoteFindErr opt = none)
    (hupdateFault : ∀ id commitID body resolved,
      d.DiffNoteUpdateErr id commitID body resolved = none)
    (hcreateFault : ∀ diffNote, d.DiffNoteCreateErr diffNote = none) :
    (InitDiffNote d ev mainRepo coll).err = none ∧
      ((InitDiffNote d ev mainRepo coll).coll.filter (diffNoteKey ev mainRepo).selects).length = 1 ∧
      (InitDiffNote d ev mainRepo (InitDiffNote d ev mainRepo coll).coll).err = none ∧
      (InitDiffNote d ev mainRepo (InitDiffNote d ev mainRepo coll).coll).coll
        = (InitDiffNote d ev mainRepo coll).coll ∧
      (InitDiffNote d ev mainRepo (InitDiffNote d ev mainRepo coll).coll).calls
        = [Call.GetCodehostDetail mainRepo.CodehostID,
            Call.DiffNoteFind (diffNoteKey ev mainRepo)] ∧
      ∀ c ∈ (InitDiffNote d ev mainRepo (InitDiffNote d ev mainRepo coll).coll).calls,
        c.isGitlabDiscussionCall = false ∧ c.isCreateDiscussion = false ∧
          c.isDiffNoteWrite = false := by
  obtain ⟨herr, hone, id, dn, hfind, hcommit⟩ := InitDiffNote_synchronises d ev mainRepo coll detail
    hcount hdetail hnote hdiscussion hfindFault hupdateFault hcreateFault
  have hsecond := InitDiffNote_of_synchronised d ev mainRepo (InitDiffNote d ev mainRepo coll).coll
    detail id dn hdetail (hfindFault _) hfind hcommit
  refine ⟨herr, hone, ?_, ?_, ?_, ?_⟩
  · rw [hsecond]
  · rw [hsecond]
  · rw [hsecond]
  · rw [hsecond]
    intro c hc
    simp only [List.mem_cons, List.mem_singleton, List.not_mem_nil, or_false] at hc
    rcases hc with rfl | rfl <;> exact ⟨rfl, rfl, rfl⟩

/-- C8 on the opened merge request 7 of `acme/web` with head commit `c1`: from
a collection that holds its thread at commit `c0` next to the thread of merge
request 8, and from the empty collection, the first call leaves one record for
the key and the second call changes nothing and only makes the two lookups. -/
theorem C8_InitDiffNote_idempotent_witness :
    (InitDiffNote sampleDeps (sampleMerge "opened") sampleRegexRule
        [otherDiffNote, sampleDiffNote "c0"]).coll
      = [otherDiffNote, { sampleDiffNote "c1" with Resolved := false }] ∧
    ((InitDiffNote sampleDeps (sampleMerge "opened") sampleRegexRule
        (InitDiffNote sampleDeps (sampleMerge "opened") sampleRegexRule
          [otherDiffNote, sampleDiffNote "c0"]).coll).coll
      = (InitDiffNote sampleDeps (sampleMerge "opened") sampleRegexRule
          [otherDiffNote, sampleDiffNote "c0"]).coll ∧
      (InitDiffNote sampleDeps (sampleMerge "opened") sampleRegexRule
        (InitDiffNote sampleDeps (sampleMerge "opened") sampleRegexRule
          [otherDiffNote, sampleDiffNote "c0"]).coll).calls
      = [Call.GetCodehostDetail 1,
          Call.DiffNoteFind (diffNoteKey (sampleMerge "opened") sampleRegexRule)]) ∧
    ((InitDiffNote sampleDeps (sampleMerge "opened") sampleRegexRule []).coll.filter
        (diffNoteKey (sampleMerge "opened") sampleRegexRule).selects).length = 1 ∧
    (InitDiffNote sampleDeps (sampleMerge "opened") sampleRegexRule
        (InitDiffNote sampleDeps (sampleMerge "opened") sampleRegexRule []).coll).coll
      = (InitDiffNote sampleDeps (sampleMerge "opened") sampleRegexRule []).coll :=
  have hstale := C8_InitDiffNote_idempotent sampleDeps (sampleMerge "opened") sampleRegexRule
    [otherDiffNote, sampleDiffNote "c0"] { Address := "https://gitlab.example", OauthToken := "token" }
    (by decide) rfl (fun _ _ _ _ _ => rfl) (fun _ _ _ => ⟨_, rfl⟩) (fun _ => rfl)
    (fun _ _ _ _ => rfl) (fun _ => rfl)
  have hempty := C8_InitDiffNote_idempotent sampleDeps (sampleMerge "opened") sampleRegexRule
    [] { Address := "https://gitlab.example", OauthToken := "token" }
    (by decide) rfl (fun _ _ _ _ _ => rfl) (fun _ _ _ => ⟨_, rfl⟩) (fun _ => rfl)
    (fun _ _ _ _ => rfl) (fun _ => rfl)
  ⟨by decide, ⟨hstale.2.2.2.1, hstale.2.2.2.2.1⟩, hempty.2.1, hempty.2.2.2.1⟩

/-! ### The dispatch loop -/

/-- The retrieval of the changed files of a push makes no task-creation
call. -/
theorem pushChangedFiles_calls (d : Deps) (ev : PushEvent) (codehostID : Int) :
    ∀ c ∈ (pushChangedFiles d ev codehostID).1,
      c.isCreateWorkflowTask = false ∧ c.isCreateEnvAndTaskByPR = false := by
  intro c hc
  unfold pushChangedFiles at hc
  split at hc
  · simp only [List.mem_singleton] at hc
    subst hc
    exact ⟨rfl, rfl⟩
  · split at hc
    · simp only [List.mem_cons, List.mem_singleton, List.not_mem_nil, or_false] at hc
      rcases hc with rfl | rfl <;> exact ⟨rfl, rfl⟩
    · split at hc <;>
      · simp only [List.mem_cons, List.mem_singleton, List.not_mem_nil, or_false] at hc
        rcases hc with rfl | rfl | rfl <;> exact ⟨rfl, rfl⟩

/-- The retrieval of the changed files of a merge request makes no
task-creation call. -/
theorem findChangedFilesOfMergeRequest_calls (d : Deps) (ev : MergeEvent) (codehostID : Int) :
    ∀ c ∈ (findChangedFilesOfMergeRequest d ev codehostID).1,
      c.isCreateWorkflowTask = false ∧ c.isCreateEnvAndTaskByPR = false := by
  intro c hc
  unfold findChangedFilesOfMergeRequest at hc
  split at hc
  · simp only [List.mem_singleton] at hc
    subst hc
    exact ⟨rfl, rfl⟩
  · split at hc
    · simp only [List.mem_cons, List.mem_singleton, List.not_mem_nil, or_false] at hc
      rcases hc with rfl | rfl <;> exact ⟨rfl, rfl⟩
    · simp only [List.mem_cons, List.mem_singleton, List.not_mem_nil, or_false] at hc
      rcases hc with rfl | rfl | rfl <;> exact ⟨rfl, rfl⟩

/-- A matcher built by the dispatch makes no task-creation call. -/
theorem dispatchMatch_calls (d : Deps) (event : Event) (workflow : Workflow)
    (matcher : gitEventMatcher) (hookRepo : MainHookRepo)
    (hm : createGitlabEventMatcher event (findChangedFilesOfMergeRequest d) workflow
      = some matcher) :
    ∀ c ∈ (matcher.Match d hookRepo).calls,
      c.isCreateWorkflowTask = false ∧ c.isCreateEnvAndTaskByPR = false := by
  intro c hc
  cases event with
  | push ev =>
    simp only [createGitlabEventMatcher, Option.some.injEq] at hm
    subst hm
    simp only [gitEventMatcher.Match] at hc
    by_cases h : hookRepo.RepoOwner ++ "/" ++ hookRepo.RepoName = ev.Project.PathWithNamespace ∧
        d.EventConfigured hookRepo HookEventType.HookEventPush = true ∧
        (hookRepo.IsRegular = false → hookRepo.Branch = d.getBranchFromRef ev.Ref) ∧
        (hookRepo.IsRegular = true →
          (regexpMatchString d hookRepo.Branch (d.getBranchFromRef ev.Ref)).1 = true)
    · obtain ⟨h1, h2, h3, h4⟩ := h
      rw [pushMatch_of_filter_passes d _ hookRepo h1 h2 h3 h4] at hc
      have hq := pushChangedFiles_calls d ev hookRepo.CodehostID
      rcases hfiles : pushChangedFiles d ev hookRepo.CodehostID with ⟨cs, err | files⟩ <;>
      · rw [hfiles] at hc hq
        exact hq c hc
    · rw [pushMatch_of_filter_fails d _ hookRepo h] at hc
      simp at hc
  | merge ev =>
    simp only [createGitlabEventMatcher, Option.some.injEq] at hm
    subst hm
    simp only [gitEventMatcher.Match] at hc
    by_cases h : hookRepo.RepoOwner ++ "/" ++ hookRepo.RepoName =
          ev.ObjectAttributes.Target.PathWithNamespace ∧
        d.EventConfigured hookRepo HookEventType.HookEventPr = true ∧
        (hookRepo.IsRegular = false → hookRepo.Branch = ev.ObjectAttributes.TargetBranch) ∧
        (hookRepo.IsRegular = true →
          (regexpMatchString d hookRepo.Branch ev.ObjectAttributes.TargetBranch).1 = true)
    · obtain ⟨h1, h2, h3, h4⟩ := h
      rw [mergeMatch_of_filter_passes d _ hookRepo h1 h2 h3 h4] at hc
      have hq := findChangedFilesOfMergeRequest_calls d ev hookRepo.CodehostID
      split at hc
      · rcases hfiles : findChangedFilesOfMergeRequest d ev hookRepo.CodehostID
          with ⟨cs, err | files⟩ <;>
        · rw [hfiles] at hq
          simp only [hfiles, List.mem_cons] at hc
          rcases hc with rfl | hc
          · exact ⟨rfl, rfl⟩
          · exact hq c hc
      · simp at hc
    · rw [mergeMatch_of_filter_fails d _ hookRepo h] at hc
      simp at hc
  | other => simp [createGitlabEventMatcher] at hm

/-- The function `InitDiffNote` makes no task-creation call. -/
theorem InitDiffNote_calls (d : Deps) (ev : MergeEvent) (mainRepo : MainHookRepo)
    (coll : DiffNoteColl) :
    ∀ c ∈ (InitDiffNote d ev mainRepo coll).calls,
      c.isCreateWorkflowTask = false ∧ c.isCreateEnvAndTaskByPR = false := by
  have hall : (InitDiffNote d ev mainRepo coll).calls.all
      (fun c => !c.isCreateWorkflowTask && !c.isCreateEnvAndTaskByPR) = true := by
    unfold InitDiffNote
    dsimp only
    repeat' split
    all_goals rfl
  intro c hc
  have := List.all_eq_true.mp hall c hc
  simpa using this

/-- Calls of the wait loops hold no entry into `CreateEnvAndTaskByPR`. -/
theorem countP_entry_of_polls (l : List Call) (h : ∀ c ∈ l, c.isPoll = true) :
    l.countP Call.isCreateEnvAndTaskByPR = 0 :=
  List.countP_eq_zero.mpr (fun c hc => by simp [(isPoll_quiet c (h c hc)).2.2])

/-- Lines 496-508 do not enter `CreateEnvAndTaskByPR`. -/
theorem recycleEnv_entry (d : Deps) (fuel : Nat) (timeoutSeconds : Int) (envName : String)
    (workflowArgs : WorkflowTaskArgs) (requestID taskStatus : String) (polls : Nat) :
    (recycleEnv d fuel timeoutSeconds envName workflowArgs requestID taskStatus polls).calls.countP
      Call.isCreateEnvAndTaskByPR = 0 := by
  unfold recycleEnv
  split
  · split
    · rfl
    · simp only [Run.after, List.countP_append]
      rw [WaitEnvDelete, countP_entry_of_polls _ (WaitEnvDeleteLoop_calls d _ _ _ _ fuel 0)]
      rfl
  · rfl

/-- A run of `CreateEnvAndTaskByPR` records its entry exactly once. -/
theorem CreateEnvAndTaskByPR_entry_once (d : Deps) (fuel : Nat) (workflowArgs : WorkflowTaskArgs)
    (prID : Int) (requestID : String) :
    (CreateEnvAndTaskByPR d fuel workflowArgs prID requestID).calls.countP
      Call.isCreateEnvAndTaskByPR = 1 := by
  have hrender : ∀ render : Option RenderInfo,
      (match render with
        | some render => [Call.RenderSetFind render.Name render.Revision]
        | none => []).countP Call.isCreateEnvAndTaskByPR = 0 := by
    intro render
    cases render <;> rfl
  have hwait := fun envName =>
    countP_entry_of_polls _
      (WaitEnvCreateLoop_calls d d.ServiceStartTimeout envName workflowArgs fuel 0)
  have hpoll := fun taskResp => countP_entry_of_polls _ (pollTaskStatus_calls d taskResp fuel 0)
  unfold CreateEnvAndTaskByPR
  dsimp only
  split
  · rfl
  · split
    · simp [List.countP_append, List.countP_cons, hrender, Call.isCreateEnvAndTaskByPR]
    · split
      · simp [List.countP_append, List.countP_cons, hrender, Call.isCreateEnvAndTaskByPR,
          WaitEnvCreate, hwait]
      · simp [List.countP_append, List.countP_cons, hrender, Call.isCreateEnvAndTaskByPR,
          WaitEnvCreate, hwait]
      · split
        · simp [List.countP_append, List.countP_cons, hrender, Call.isCreateEnvAndTaskByPR,
            WaitEnvCreate, hwait]
        · split
          · simp [List.countP_append, List.countP_cons, hrender, Call.isCreateEnvAndTaskByPR,
              WaitEnvCreate, hwait, hpoll]
          · simp [List.countP_append, List.countP_cons, hrender, Call.isCreateEnvAndTaskByPR,
              WaitEnvCreate, hwait, hpoll, recycleEnv_entry]

/-- Lines 255-287 make no task-creation call. -/
theorem mergeRequestSteps_calls (d : Deps) (event : Event) (baseURI : String)
    (mainRepo : MainHookRepo) (workflowArgs : WorkflowTaskArgs) (vars : LoopVars) :
    ∀ c ∈ (mergeRequestSteps d event baseURI mainRepo workflowArgs vars).2.2,
      c.isCreateWorkflowTask = false ∧ c.isCreateEnvAndTaskByPR = false := by
  intro c hc
  unfold mergeRequestSteps at hc
  cases event with
  | merge ev =>
    dsimp only at hc
    split at hc
    · simp only [List.mem_append, List.mem_cons, List.not_mem_nil, or_false] at hc
      rcases hc with (rfl | rfl) | hc
      · exact ⟨rfl, rfl⟩
      · exact ⟨rfl, rfl⟩
      · exact InitDiffNote_calls d ev mainRepo vars.diffNotes c hc
    · simp only [List.mem_singleton] at hc
      subst hc
      exact ⟨rfl, rfl⟩
  | push ev => simp at hc
  | other => simp at hc

/-- Lines 255-287 set `isMergeRequest` exactly for a merge event. -/
theorem mergeRequestSteps_isMergeRequest (d : Deps) (event : Event) (baseURI : String)
    (mainRepo : MainHookRepo) (workflowArgs : WorkflowTaskArgs) (vars : LoopVars) :
    (mergeRequestSteps d event baseURI mainRepo workflowArgs vars).1.isMergeRequest
      = match event with
        | .merge _ => true
        | _ => false := by
  unfold mergeRequestSteps
  cases event with
  | merge ev =>
    dsimp only
    split <;> rfl
  | push ev => rfl
  | other => rfl

/-- The task arguments of lines 289-299 keep the `BaseNamespace` of the hook
when the argument factory keeps it. -/
theorem hookTaskArgs_BaseNamespace (d : Deps) (matcher : gitEventMatcher) (requestID : String)
    (prod : Product) (mainRepo : MainHookRepo) (workflowArgs : WorkflowTaskArgs)
    (notification : Option Notification) (info : MergeRequestInfo)
    (hfactory : ∀ workflow reqID product args repo,
      (d.factoryUpdate workflow reqID product args repo).BaseNamespace = args.BaseNamespace) :
    (hookTaskArgs d matcher requestID prod mainRepo workflowArgs notification info).BaseNamespace
      = workflowArgs.BaseNamespace := by
  unfold hookTaskArgs gitEventMatcher.UpdateTaskArgs
  cases matcher <;> cases notification <;> simp [hfactory]

/-- The direct path of lines 301-314: one call to `CreateWorkflowTask`, no
entry into `CreateEnvAndTaskByPR`, and the step finishes. -/
theorem createTask_direct (d : Deps) (fuel : Nat) (baseURI requestID : String)
    (workflow : Workflow) (mainRepo : MainHookRepo) (args : WorkflowTaskArgs)
    (info : MergeRequestInfo) (vars : LoopVars) (hbase : args.BaseNamespace = "") :
    (createTask d fuel baseURI requestID workflow mainRepo args info vars).calls.countP
        Call.isCreateWorkflowTask = 1 ∧
      (createTask d fuel baseURI requestID workflow mainRepo args info vars).calls.countP
        Call.isCreateEnvAndTaskByPR = 0 ∧
      (createTask d fuel baseURI requestID workflow mainRepo args info vars).finished = true := by
  unfold createTask
  rw [if_pos hbase]
  split <;> exact ⟨rfl, rfl, rfl⟩

/-- The path of lines 315-319: with a base namespace and a merge request, the
step is the run of `CreateEnvAndTaskByPR`, and `mErr` stays as it is. -/
theorem createTask_ephemeral (d : Deps) (fuel : Nat) (baseURI requestID : String)
    (workflow : Workflow) (mainRepo : MainHookRepo) (args : WorkflowTaskArgs)
    (info : MergeRequestInfo) (vars : LoopVars) (hbase : args.BaseNamespace ≠ "")
    (hmerge : info.isMergeRequest = true) :
    createTask d fuel baseURI requestID workflow mainRepo args info vars =
      { vars := vars, calls := (CreateEnvAndTaskByPR d fuel args info.prID requestID).calls,
        finished := (CreateEnvAndTaskByPR d fuel args info.prID requestID).result.isSome } := by
  unfold createTask
  rw [if_neg hbase, if_pos ⟨hbase, hmerge⟩]

/-- With a base namespace and an event that is no merge request, lines
300-319 do nothing. -/
theorem createTask_none (d : Deps) (fuel : Nat) (baseURI requestID : String)
    (workflow : Workflow) (mainRepo : MainHookRepo) (args : WorkflowTaskArgs)
    (info : MergeRequestInfo) (vars : LoopVars) (hbase : args.BaseNamespace ≠ "")
    (hmerge : info.isMergeRequest = false) :
    createTask d fuel baseURI requestID workflow mainRepo args info vars =
      { vars := vars, calls := [], finished := true } := by
  unfold createTask
  rw [if_neg hbase, if_neg (by simp [hmerge])]

/-- The loop body for a hook that matches and whose environment is found. -/
theorem triggerHook_of_matched (d : Deps) (fuel : Nat) (event : Event)
    (baseURI requestID : String) (workflow : Workflow) (item : WorkflowHook)
    (workflowArgs : WorkflowTaskArgs) (matcher : gitEventMatcher) (prod : Product)
    (vars : LoopVars)
    (hargs : item.WorkflowArgs = some workflowArgs)
    (hmatcher : createGitlabEventMatcher event (findChangedFilesOfMergeRequest d) workflow
      = some matcher)
    (herr : (matcher.Match d item.MainRepo).err = none)
    (hmatched : (matcher.Match d item.MainRepo).matched = true)
    (hprod : d.ProductFind workflow.ProductTmplName (firstOfCommaList workflowArgs.Namespace)
      = .ok prod) :
    triggerHook d fuel event baseURI requestID workflow item vars =
      { vars := (createTask d fuel baseURI requestID workflow (matcher.Match d item.MainRepo).hookRepo
          (hookTaskArgs d matcher requestID prod (matcher.Match d item.MainRepo).hookRepo workflowArgs
            (mergeRequestSteps d event baseURI (matcher.Match d item.MainRepo).hookRepo workflowArgs
              vars).2.1.notification
            (mergeRequestSteps d event baseURI (matcher.Match d item.MainRepo).hookRepo workflowArgs
              vars).1)
          (mergeRequestSteps d event baseURI (matcher.Match d item.MainRepo).hookRepo workflowArgs
            vars).1
          (mergeRequestSteps d event baseURI (matcher.Match d item.MainRepo).hookRepo workflowArgs
            vars).2.1).vars,
        calls := (matcher.Match d item.MainRepo).calls ++
          [Call.ProductFind workflow.ProductTmplName (firstOfCommaList workflowArgs.Namespace)] ++
          (mergeRequestSteps d event baseURI (matcher.Match d item.MainRepo).hookRepo workflowArgs
            vars).2.2 ++
          (createTask d fuel baseURI requestID workflow (matcher.Match d item.MainRepo).hookRepo
            (hookTaskArgs d matcher requestID prod (matcher.Match d item.MainRepo).hookRepo
              workflowArgs
              (mergeRequestSteps d event baseURI (matcher.Match d item.MainRepo).hookRepo
                workflowArgs vars).2.1.notification
              (mergeRequestSteps d event baseURI (matcher.Match d item.MainRepo).hookRepo
                workflowArgs vars).1)
            (mergeRequestSteps d event baseURI (matcher.Match d item.MainRepo).hookRepo workflowArgs
              vars).1
            (mergeRequestSteps d event baseURI (matcher.Match d item.MainRepo).hookRepo workflowArgs
              vars).2.1).calls,
        finished := (createTask d fuel baseURI requestID workflow
          (matcher.Match d item.MainRepo).hookRepo
          (hookTaskArgs d matcher requestID prod (matcher.Match d item.MainRepo).hookRepo workflowArgs
            (mergeRequestSteps d event baseURI (matcher.Match d item.MainRepo).hookRepo workflowArgs
              vars).2.1.notification
            (mergeRequestSteps d event baseURI (matcher.Match d item.MainRepo).hookRepo workflowArgs
              vars).1)
          (mergeRequestSteps d event baseURI (matcher.Match d item.MainRepo).hookRepo workflowArgs
            vars).1
          (mergeRequestSteps d event baseURI (matcher.Match d item.MainRepo).hookRepo workflowArgs
            vars).2.1).finished } := by
  unfold triggerHook
  simp only [hargs, hmatcher, herr, hmatched, hprod, Bool.not_true, Bool.false_eq_true, if_false]

/-- A list without task-creation calls counts none. -/
theorem countP_of_quiet (l : List Call)
    (h : ∀ c ∈ l, c.isCreateWorkflowTask = false ∧ c.isCreateEnvAndTaskByPR = false) :
    l.countP Call.isCreateWorkflowTask = 0 ∧ l.countP Call.isCreateEnvAndTaskByPR = 0 :=
  ⟨List.countP_eq_zero.mpr (fun c hc => by simp [(h c hc).1]),
    List.countP_eq_zero.mpr (fun c hc => by simp [(h c hc).2])⟩

/-- The calls of the loop body before the task creation, for a hook that
matches and whose environment is found, hold no task-creation call. -/
theorem triggerHook_before_creation (d : Deps) (event : Event) (baseURI : String)
    (workflow : Workflow) (item : WorkflowHook) (workflowArgs : WorkflowTaskArgs)
    (matcher : gitEventMatcher) (vars : LoopVars)
    (hmatcher : createGitlabEventMatcher event (findChangedFilesOfMergeRequest d) workflow
      = some matcher) :
    ((matcher.Match d item.MainRepo).calls ++
        [Call.ProductFind workflow.ProductTmplName (firstOfCommaList workflowArgs.Namespace)] ++
        (mergeRequestSteps d event baseURI (matcher.Match d item.MainRepo).hookRepo workflowArgs
          vars).2.2).countP Call.isCreateWorkflowTask = 0 ∧
      ((matcher.Match d item.MainRepo).calls ++
        [Call.ProductFind workflow.ProductTmplName (firstOfCommaList workflowArgs.Namespace)] ++
        (mergeRequestSteps d event baseURI (matcher.Match d item.MainRepo).hookRepo workflowArgs
          vars).2.2).countP Call.isCreateEnvAndTaskByPR = 0 := by
  apply countP_of_quiet
  intro c hc
  simp only [List.mem_append, List.mem_singleton] at hc
  rcases hc with (hc | rfl) | hc
  · exact dispatchMatch_calls d event workflow matcher item.MainRepo hmatcher c hc
  · exact ⟨rfl, rfl⟩
  · exact mergeRequestSteps_calls d event baseURI _ workflowArgs vars c hc

/-- C3, as the code has it: in the loop body of `TriggerWorkflowByGitlabEvent`,
for a hook that matches and whose environment is found (the argument factory
keeping `BaseNamespace`), the task is created directly, by exactly one call to
`CreateWorkflowTask` and without `CreateEnvAndTaskByPR`, when `BaseNamespace`
is empty; it is created through exactly one run of `CreateEnvAndTaskByPR`,
whose calls end the step and before which no `CreateWorkflowTask` is called,
when `BaseNamespace` is non-empty and the event is a merge request; and no
task is created, by neither path, when `BaseNamespace` is non-empty and the
event is a push. -/
theorem C3_creation_path (d : Deps) (fuel : Nat) (event : Event) (baseURI requestID : String)
    (workflow : Workflow) (item : WorkflowHook) (workflowArgs : WorkflowTaskArgs)
    (matcher : gitEventMatcher) (prod : Product) (vars : LoopVars)
    (hargs : item.WorkflowArgs = some workflowArgs)
    (hmatcher : createGitlabEventMatcher event (findChangedFilesOfMergeRequest d) workflow
      = some matcher)
    (herr : (matcher.Match d item.MainRepo).err = none)
    (hmatched : (matcher.Match d item.MainRepo).matched = true)
    (hprod : d.ProductFind workflow.ProductTmplName (firstOfCommaList workflowArgs.Namespace)
      = .ok prod)
    (hfactory : ∀ workflow reqID product args repo,
      (d.factoryUpdate workflow reqID product args repo).BaseNamespace = args.BaseNamespace) :
    (workflowArgs.BaseNamespace = "" →
      (triggerHook d fuel event baseURI requestID workflow item vars).calls.countP
          Call.isCreateWorkflowTask = 1 ∧
        (triggerHook d fuel event baseURI requestID workflow item vars).calls.countP
          Call.isCreateEnvAndTaskByPR = 0) ∧
    (workflowArgs.BaseNamespace ≠ "" → (∃ ev, event = Event.merge ev) →
      (triggerHook d fuel event baseURI requestID workflow item vars).calls.countP
          Call.isCreateEnvAndTaskByPR = 1 ∧
        ∃ before args prID,
          (triggerHook d fuel event baseURI requestID workflow item vars).calls
            = before ++ (CreateEnvAndTaskByPR d fuel args prID requestID).calls ∧
          before.countP Call.isCreateWorkflowTask = 0 ∧
          before.countP Call.isCreateEnvAndTaskByPR = 0) ∧
    (workflowArgs.BaseNamespace ≠ "" → (∃ ev, event = Event.push ev) →
      (triggerHook d fuel event baseURI requestID workflow item vars).calls.countP
          Call.isCreateWorkflowTask = 0 ∧
        (triggerHook d fuel event baseURI requestID workflow item vars).calls.countP
          Call.isCreateEnvAndTaskByPR = 0) := by
  have hbefore := triggerHook_before_creation d event baseURI workflow item workflowArgs matcher
    vars hmatcher
  have hbase := fun notification info =>
    hookTaskArgs_BaseNamespace d matcher requestID prod (matcher.Match d item.MainRepo).hookRepo
      workflowArgs notification info hfactory
  have hkind := mergeRequestSteps_isMergeRequest d event baseURI
    (matcher.Match d item.MainRepo).hookRepo workflowArgs vars
  rw [triggerHook_of_matched d fuel event baseURI requestID workflow item workflowArgs matcher prod
    vars hargs hmatcher herr hmatched hprod]
  generalize mergeRequestSteps d event baseURI (matcher.Match d item.MainRepo).hookRepo
    workflowArgs vars = steps at hbefore hkind ⊢
  have hargsBase := hbase steps.2.1.notification steps.1
  generalize hookTaskArgs d matcher requestID prod (matcher.Match d item.MainRepo).hookRepo
    workflowArgs steps.2.1.notification steps.1 = args at hargsBase ⊢
  generalize (matcher.Match d item.MainRepo).calls ++
    [Call.ProductFind workflow.ProductTmplName (firstOfCommaList workflowArgs.Namespace)] ++
    steps.2.2 = before at hbefore ⊢
  refine ⟨fun hempty => ?_, fun hnonempty hmerge => ?_, fun hnonempty hpush => ?_⟩
  · have hdirect := createTask_direct d fuel baseURI requestID workflow
      (matcher.Match d item.MainRepo).hookRepo args steps.1 steps.2.1 (hargsBase.trans hempty)
    rw [List.countP_append, List.countP_append, hbefore.1, hbefore.2, hdirect.1, hdirect.2.1]
    exact ⟨rfl, rfl⟩
  · obtain ⟨ev, rfl⟩ := hmerge
    have heph := createTask_ephemeral d fuel baseURI requestID workflow
      (matcher.Match d item.MainRepo).hookRepo args steps.1 steps.2.1
      (by rw [hargsBase]; exact hnonempty) hkind
    simp only [heph]
    refine ⟨?_, _, _, _, rfl, hbefore.1, hbefore.2⟩
    rw [List.countP_append, hbefore.2, CreateEnvAndTaskByPR_entry_once]
  · obtain ⟨ev, rfl⟩ := hpush
    have hnone := createTask_none d fuel baseURI requestID workflow
      (matcher.Match d item.MainRepo).hookRepo args steps.1 steps.2.1
      (by rw [hargsBase]; exact hnonempty) hkind
    simp only [hnone, List.append_nil]
    exact hbefore

/-- C3 on three matched hooks of the rule `main` of `acme/web` with the
environment `dev`: a push without base namespace creates the task directly, an
opened merge request with the base namespace `base` runs
`CreateEnvAndTaskByPR` once, and a push with the base namespace `base` creates
no task. -/
theorem C3_creation_path_witness :
    ((triggerHook sampleDeps 5 (Event.push samplePush) "http://zadig" "req"
        (sampleHookWorkflow [sampleDirectHook]) sampleDirectHook sampleStartVars).calls.countP
          Call.isCreateWorkflowTask = 1 ∧
      (triggerHook sampleDeps 5 (Event.push samplePush) "http://zadig" "req"
        (sampleHookWorkflow [sampleDirectHook]) sampleDirectHook sampleStartVars).calls.countP
          Call.isCreateEnvAndTaskByPR = 0) ∧
    (triggerHook sampleDeps 5 (Event.merge (sampleMerge "opened")) "http://zadig" "req"
        (sampleHookWorkflow [sampleBaseHook]) sampleBaseHook sampleStartVars).calls.countP
          Call.isCreateEnvAndTaskByPR = 1 ∧
    ((triggerHook sampleDeps 5 (Event.push samplePush) "http://zadig" "req"
        (sampleHookWorkflow [sampleBaseHook]) sampleBaseHook sampleStartVars).calls.countP
          Call.isCreateWorkflowTask = 0 ∧
      (triggerHook sampleDeps 5 (Event.push samplePush) "http://zadig" "req"
        (sampleHookWorkflow [sampleBaseHook]) sampleBaseHook sampleStartVars).calls.countP
          Call.isCreateEnvAndTaskByPR = 0) :=
  ⟨(C3_creation_path sampleDeps 5 (Event.push samplePush) "http://zadig" "req"
      (sampleHookWorkflow [sampleDirectHook]) sampleDirectHook
      { sampleEnvArgs "always" with BaseNamespace := "" }
      (gitEventMatcher.push
        { workflow := sampleHookWorkflow [sampleDirectHook], event := samplePush })
      { ID := "1", ProductName := "shop", EnvName := "dev", Namespace := "dev",
        UpdateBy := "admin", Render := none, Vars := [] }
      sampleStartVars rfl rfl (by decide) (by decide) rfl
      (fun _ _ _ _ _ => rfl)).1 rfl,
    ((C3_creation_path sampleDeps 5 (Event.merge (sampleMerge "opened")) "http://zadig" "req"
      (sampleHookWorkflow [sampleBaseHook]) sampleBaseHook (sampleEnvArgs "always")
      (gitEventMatcher.merge
        { diffFunc := findChangedFilesOfMergeRequest sampleDeps,
          workflow := sampleHookWorkflow [sampleBaseHook], event := sampleMerge "opened" })
      { ID := "1", ProductName := "shop", EnvName := "dev", Namespace := "dev",
        UpdateBy := "admin", Render := none, Vars := [] }
      sampleStartVars rfl rfl (by decide) (by decide) rfl
      (fun _ _ _ _ _ => rfl)).2.1 (by decide) ⟨_, rfl⟩).1,
    (C3_creation_path sampleDeps 5 (Event.push samplePush) "http://zadig" "req"
      (sampleHookWorkflow [sampleBaseHook]) sampleBaseHook (sampleEnvArgs "always")
      (gitEventMatcher.push
        { workflow := sampleHookWorkflow [sampleBaseHook], event := samplePush })
      { ID := "1", ProductName := "shop", EnvName := "dev", Namespace := "dev",
        UpdateBy := "admin", Render := none, Vars := [] }
      sampleStartVars rfl rfl (by decide) (by decide) rfl
      (fun _ _ _ _ _ => rfl)).2.2 (by decide) ⟨_, rfl⟩⟩

/-- C3 as stated fails: the push to `main` matches the rule of a hook whose
environment `dev` is found and whose `BaseNamespace` is `base`, and the
dispatch returns nil after the lookup of the environment, without a call to
`CreateWorkflowTask` and without `CreateEnvAndTaskByPR`. -/
theorem C3_counterexample :
    sampleBaseHook.WorkflowArgs = some (sampleEnvArgs "always") ∧
      (sampleEnvArgs "always").BaseNamespace = "base" ∧
      (gitlabPushEventMatcher.Match (depsListing [sampleHookWorkflow [sampleBaseHook]])
        { workflow := sampleHookWorkflow [sampleBaseHook], event := samplePush }
        sampleBaseHook.MainRepo).matched = true ∧
      TriggerWorkflowByGitlabEvent (depsListing [sampleHookWorkflow [sampleBaseHook]]) 5
          (Event.push samplePush) "http://zadig" "req" []
        = { calls := [Call.ListWorkflows, Call.GetCodehostDetail 1,
              Call.NewClient "https://gitlab.example" "token", Call.Compare 7 "c0" "c1",
              Call.ProductFind "shop" "dev"],
            diffNotes := [],
            result := some none } := by
  decide

/-- C4 at the failing inputs: for the opened merge request 7 and the matched
hook with the base namespace `base`, `CreateEnvAndTaskByPR` fails, once
because the base environment is not found and once because the creation wait
times out, and the dispatch still returns nil.  A failing `CreateWorkflowTask`
is aggregated on the direct path (`boom`) and dropped when the same call fails
inside `CreateEnvAndTaskByPR`. -/
theorem C4_ephemeral_error_dropped :
    ((CreateEnvAndTaskByPR (noBaseDeps [sampleHookWorkflow [sampleBaseHook]]) 5 sampleBuiltArgs 7
          "req").result
        = some ⟨some "CreateEnvAndTaskByPR Product Find err:not found", sampleBuiltArgs⟩ ∧
      Call.CreateEnvAndTaskByPR sampleBuiltArgs 7 "req" ∈
        (TriggerWorkflowByGitlabEvent (noBaseDeps [sampleHookWorkflow [sampleBaseHook]]) 5
          (Event.merge (sampleMerge "opened")) "http://zadig" "req" []).calls ∧
      (TriggerWorkflowByGitlabEvent (noBaseDeps [sampleHookWorkflow [sampleBaseHook]]) 5
        (Event.merge (sampleMerge "opened")) "http://zadig" "req" []).result = some none) ∧
    ((CreateEnvAndTaskByPR (createTimeoutListing [sampleHookWorkflow [sampleBaseHook]]) 5
          sampleBuiltArgs 7 "req").result
        = some ⟨some (waitEnvCreateTimeoutError 300 "pr-7-123abc" sampleBuiltArgs),
            sampleBuiltArgs⟩ ∧
      Call.CreateEnvAndTaskByPR sampleBuiltArgs 7 "req" ∈
        (TriggerWorkflowByGitlabEvent (createTimeoutListing [sampleHookWorkflow [sampleBaseHook]])
          5 (Event.merge (sampleMerge "opened")) "http://zadig" "req" []).calls ∧
      (TriggerWorkflowByGitlabEvent (createTimeoutListing [sampleHookWorkflow [sampleBaseHook]]) 5
        (Event.merge (sampleMerge "opened")) "http://zadig" "req" []).result = some none) ∧
    ((TriggerWorkflowByGitlabEvent (taskFailsDeps [sampleHookWorkflow [sampleDirectHook]]) 5
        (Event.merge (sampleMerge "opened")) "http://zadig" "req" []).result
        = some (some ["boom"]) ∧
      (TriggerWorkflowByGitlabEvent (taskFailsDeps [sampleHookWorkflow [sampleBaseHook]]) 5
        (Event.merge (sampleMerge "opened")) "http://zadig" "req" []).result = some none) := by
  decide

/-- The digit character of a number below ten writes that number. -/
theorem digitChar_value (k : Nat) (hk : k < 10) : (Nat.digitChar k).toNat - 48 = k := by
  interval_cases k <;> rfl

/-- The digit character of a number below ten is not the minus sign. -/
theorem digitChar_ne_minus (k : Nat) (hk : k < 10) : Nat.digitChar k ≠ '-' := by
  interval_cases k <;> decide

/-- The digits of a number are put in front of the digits already there. -/
theorem toDigitsCore_append (fuel : Nat) : ∀ (n : Nat) (ds : List Char),
    Nat.toDigitsCore 10 fuel n ds = Nat.toDigitsCore 10 fuel n [] ++ ds := by
  induction fuel with
  | zero =>
    intro n ds
    simp [Nat.toDigitsCore]
  | succ fuel ih =>
    intro n ds
    simp only [Nat.toDigitsCore]
    split
    · simp
    · rw [ih (n / 10) (Nat.digitChar (n % 10) :: ds), ih (n / 10) [Nat.digitChar (n % 10)]]
      simp

/-- One more digit at the end: ten times the value so far plus the digit. -/
theorem decimalValue_append_singleton (ds : List Char) (c : Char) :
    decimalValue (ds ++ [c]) = decimalValue ds * 10 + (c.toNat - 48) := by
  simp [decimalValue, List.foldl_append]

/-- Reading back the decimal digits of a number gives the number. -/
theorem decimalValue_toDigitsCore (fuel : Nat) : ∀ n, n < fuel →
    decimalValue (Nat.toDigitsCore 10 fuel n []) = n := by
  induction fuel with
  | zero =>
    intro n hn
    omega
  | succ fuel ih =>
    intro n hn
    simp only [Nat.toDigitsCore]
    split
    · simp only [decimalValue, List.foldl_cons, List.foldl_nil, Nat.zero_mul, Nat.zero_add]
      rw [digitChar_value _ (Nat.mod_lt _ (by decide))]
      omega
    · rw [toDigitsCore_append, decimalValue_append_singleton, ih (n / 10) (by omega),
        digitChar_value _ (Nat.mod_lt _ (by decide))]
      omega

/-- The decimal digits of a number hold no minus sign. -/
theorem toDigitsCore_no_minus (fuel : Nat) :
    ∀ n, ∀ c ∈ Nat.toDigitsCore 10 fuel n [], c ≠ '-' := by
  induction fuel with
  | zero =>
    intro n c hc
    simp [Nat.toDigitsCore] at hc
  | succ fuel ih =>
    intro n c hc
    simp only [Nat.toDigitsCore] at hc
    split at hc
    · simp only [List.mem_singleton] at hc
      subst hc
      exact digitChar_ne_minus _ (Nat.mod_lt _ (by decide))
    · rw [toDigitsCore_append] at hc
      simp only [List.mem_append, List.mem_singleton] at hc
      rcases hc with hc | rfl
      · exact ih _ c hc
      · exact digitChar_ne_minus _ (Nat.mod_lt _ (by decide))

/-- Two natural numbers with the same decimal text are equal. -/
theorem natToString_injective (m n : Nat) (h : Nat.toDigits 10 m = Nat.toDigits 10 n) :
    m = n := by
  have hm := decimalValue_toDigitsCore (m + 1) m (by omega)
  have hn := decimalValue_toDigitsCore (n + 1) n (by omega)
  unfold Nat.toDigits at h
  rw [h] at hm
  omega

/-- The text of a non-negative integer is its decimal digits. -/
theorem intToString_data_ofNat (m : Nat) :
    (toString (Int.ofNat m)).data = Nat.toDigits 10 m := rfl

/-- The text of a negative integer is a minus sign and the decimal digits of
its absolute value. -/
theorem intToString_data_negSucc (m : Nat) :
    (toString (Int.negSucc m)).data = '-' :: Nat.toDigits 10 (m + 1) := rfl

/-- Two integers with the same text, as `%d` prints them, are equal. -/
theorem intToString_injective (p q : Int) (h : (toString p).data = (toString q).data) :
    p = q := by
  cases p with
  | ofNat a =>
    cases q with
    | ofNat b =>
      rw [intToString_data_ofNat, intToString_data_ofNat] at h
      rw [natToString_injective a b h]
    | negSucc b =>
      rw [intToString_data_ofNat, intToString_data_negSucc] at h
      have hminus := toDigitsCore_no_minus (a + 1) a '-' (by
        unfold Nat.toDigits at h
        rw [h]
        exact List.mem_cons_self _ _)
      exact absurd rfl hminus
  | negSucc a =>
    cases q with
    | ofNat b =>
      rw [intToString_data_ofNat, intToString_data_negSucc] at h
      have hminus := toDigitsCore_no_minus (b + 1) b '-' (by
        unfold Nat.toDigits at h
        rw [← h]
        exact List.mem_cons_self _ _)
      exact absurd rfl hminus
    | negSucc b =>
      rw [intToString_data_negSucc, intToString_data_negSucc] at h
      have hab : a + 1 = b + 1 := natToString_injective _ _ (List.tail_eq_of_cons_eq h)
      have : a = b := by omega
      rw [this]

/-- The characters of the environment name of line 457. -/
theorem prEnvName_data (prID : Int) (num str : String) :
    (prEnvName prID num str).data
      = ['p', 'r', '-'] ++ (toString prID).data ++ ('-' :: (num ++ str).data) := by
  simp [prEnvName, String.data_append]

/-- A call of a wait loop creates no environment. -/
theorem isPoll_createsEnvNamed (name : String) (c : Call) (h : c.isPoll = true) :
    c.createsEnvNamed name = true := by
  cases c <;> first | rfl | exact Bool.noConfusion h

/-- Calls of the wait loops create no environment. -/
theorem all_createsEnvNamed_of_polls (name : String) (l : List Call)
    (h : ∀ c ∈ l, c.isPoll = true) : l.all (Call.createsEnvNamed name) = true :=
  List.all_eq_true.mpr (fun c hc => isPoll_createsEnvNamed name c (h c hc))

/-- Lines 496-508 create no environment. -/
theorem recycleEnv_createsEnvNamed (name : String) (d : Deps) (fuel : Nat)
    (timeoutSeconds : Int) (envName : String) (workflowArgs : WorkflowTaskArgs)
    (requestID taskStatus : String) (polls : Nat) :
    (recycleEnv d fuel timeoutSeconds envName workflowArgs requestID taskStatus polls).calls.all
      (Call.createsEnvNamed name) = true := by
  unfold recycleEnv
  split
  · split
    · rfl
    · simp only [Run.after, List.all_append, Bool.and_eq_true]
      exact ⟨rfl, all_createsEnvNamed_of_polls name _ (WaitEnvDeleteLoop_calls d _ _ _ _ fuel 0)⟩
  · rfl

/-- Every environment that a run of `CreateEnvAndTaskByPR` creates has the
name of line 457. -/
theorem CreateEnvAndTaskByPR_createsEnvNamed (d : Deps) (fuel : Nat)
    (workflowArgs : WorkflowTaskArgs) (prID : Int) (requestID : String) :
    (CreateEnvAndTaskByPR d fuel workflowArgs prID requestID).calls.all
      (Call.createsEnvNamed (prEnvName prID (d.GetRandomNumString 3) (d.GetRandomString 3)))
        = true := by
  have hrender : ∀ (name : String) (render : Option RenderInfo),
      (match render with
        | some render => [Call.RenderSetFind render.Name render.Revision]
        | none => []).all (Call.createsEnvNamed name) = true := by
    intro name render
    cases render <;> rfl
  have hwait := fun name envName =>
    all_createsEnvNamed_of_polls name _
      (WaitEnvCreateLoop_calls d d.ServiceStartTimeout envName workflowArgs fuel 0)
  have hpoll := fun name taskResp =>
    all_createsEnvNamed_of_polls name _ (pollTaskStatus_calls d taskResp fuel 0)
  unfold CreateEnvAndTaskByPR
  dsimp only
  split
  · rfl
  · split
    · simp [List.all_append, hrender, Call.createsEnvNamed, cloneBaseProduct]
    · split
      · simp [List.all_append, hrender, Call.createsEnvNamed, cloneBaseProduct, WaitEnvCreate,
          hwait]
      · simp [List.all_append, hrender, Call.createsEnvNamed, cloneBaseProduct, WaitEnvCreate,
          hwait]
      · split
        · simp [List.all_append, hrender, Call.createsEnvNamed, cloneBaseProduct, WaitEnvCreate,
            hwait]
        · split
          · simp [List.all_append, hrender, Call.createsEnvNamed, cloneBaseProduct,
              WaitEnvCreate, hwait, hpoll]
          · simp [List.all_append, hrender, Call.createsEnvNamed, cloneBaseProduct,
              WaitEnvCreate, hwait, hpoll, recycleEnv_createsEnvNamed]

/-- C11: the environment names that the format string of line 457 builds for
two distinct PR numbers are different strings, whatever the two random
suffixes of six characters (three from `GetRandomNumString`, three from
`GetRandomString`) are; so two runs of `CreateEnvAndTaskByPR` for distinct PR
numbers, each with six random characters, never create environments of the
same name. -/
theorem C11_env_names_of_distinct_prs_differ (p q : Int) (hpq : p ≠ q) :
    (∀ num1 str1 num2 str2 : String,
      (num1 ++ str1).length = 6 → (num2 ++ str2).length = 6 →
      prEnvName p num1 str1 ≠ prEnvName q num2 str2) ∧
    (∀ (d1 d2 : Deps) (fuel1 fuel2 : Nat) (args1 args2 : WorkflowTaskArgs)
      (req1 req2 user1 user2 id1 id2 : String) (product1 product2 : Product),
      (d1.GetRandomNumString 3 ++ d1.GetRandomString 3).length = 6 →
      (d2.GetRandomNumString 3 ++ d2.GetRandomString 3).length = 6 →
      Call.CreateProduct user1 id1 product1 ∈ (CreateEnvAndTaskByPR d1 fuel1 args1 p req1).calls →
      Call.CreateProduct user2 id2 product2 ∈ (CreateEnvAndTaskByPR d2 fuel2 args2 q req2).calls →
      product1.EnvName ≠ product2.EnvName) := by
  have hnames : ∀ num1 str1 num2 str2 : String,
      (num1 ++ str1).length = 6 → (num2 ++ str2).length = 6 →
      prEnvName p num1 str1 ≠ prEnvName q num2 str2 := by
    intro num1 str1 num2 str2 h1 h2 h
    have hd := congrArg String.data h
    rw [prEnvName_data, prEnvName_data] at hd
    have hlen : ('-' :: (num1 ++ str1).data).length = ('-' :: (num2 ++ str2).data).length := by
      simp only [List.length_cons]
      rw [← String.length, ← String.length, h1, h2]
    have hhead := (List.append_inj' hd hlen).1
    exact hpq (intToString_injective p q (List.append_cancel_left hhead))
  refine ⟨hnames, ?_⟩
  intro d1 d2 fuel1 fuel2 args1 args2 req1 req2 user1 user2 id1 id2 product1 product2 h1 h2
    hmem1 hmem2
  have hname1 := List.all_eq_true.mp
    (CreateEnvAndTaskByPR_createsEnvNamed d1 fuel1 args1 p req1) _ hmem1
  have hname2 := List.all_eq_true.mp
    (CreateEnvAndTaskByPR_createsEnvNamed d2 fuel2 args2 q req2) _ hmem2
  simp only [Call.createsEnvNamed, decide_eq_true_eq] at hname1 hname2
  rw [hname1, hname2]
  exact hnames _ _ _ _ h1 h2

/-- C11 on the PR numbers 7 and 9 of the spec, with the same suffix `123abc`
for both and with two different suffixes, and on the two environments that
`CreateEnvAndTaskByPR` creates for them. -/
theorem C11_env_names_of_distinct_prs_differ_witness :
    (7 : Int) ≠ 9 ∧ ("123" ++ "abc").length = 6 ∧ ("456" ++ "xyz").length = 6 ∧
      prEnvName 7 "123" "abc" = "pr-7-123abc" ∧ prEnvName 9 "123" "abc" = "pr-9-123abc" ∧
      prEnvName 7 "123" "abc" ≠ prEnvName 9 "123" "abc" ∧
      prEnvName 7 "123" "abc" ≠ prEnvName 9 "456" "xyz" ∧
      Call.CreateProduct "system" "req" (sampleClonedProduct 7) ∈
        (CreateEnvAndTaskByPR sampleDeps 5 (sampleEnvArgs "always") 7 "req").calls ∧
      Call.CreateProduct "system" "req" (sampleClonedProduct 9) ∈
        (CreateEnvAndTaskByPR sampleDeps 5 (sampleEnvArgs "always") 9 "req").calls ∧
      (sampleClonedProduct 7).EnvName ≠ (sampleClonedProduct 9).EnvName :=
  ⟨by decide, by decide, by decide, by decide, by decide,
    (C11_env_names_of_distinct_prs_differ 7 9 (by decide)).1 "123" "abc" "123" "abc" (by decide)
      (by decide),
    (C11_env_names_of_distinct_prs_differ 7 9 (by decide)).1 "123" "abc" "456" "xyz" (by decide)
      (by decide),
    by decide, by decide,
    (C11_env_names_of_distinct_prs_differ 7 9 (by decide)).2 sampleDeps sampleDeps 5 5
      (sampleEnvArgs "always") (sampleEnvArgs "always") "req" "req" "system" "system" "req" "req"
      (sampleClonedProduct 7) (sampleClonedProduct 9) (by decide) (by decide) (by decide)
      (by decide)⟩

/-! ### The rule after a merge `Match` that returns false -/

/-- C12: `Match` of the merge matcher can return false and still change the
rule.  When the repository identity, the event-type mask and the branch filter
all pass, the rule is left with the target branch of the event as its branch,
also for a regular-expression rule, whatever comes after: when the state is
not `opened` the result is `(false, nil)` without a call, when `diffFunc`
fails the result is false with its error, and when `MatchChanges` rejects the
changed files (it is given the rule with the target branch) the result is
`(false, nil)`.  When the repository identity, the event mask or the branch
filter fails, the result is `(false, nil)` and the rule is unchanged. -/
theorem C12_merge_match_false_mutates_rule (d : Deps) (gmem : gitlabMergeEventMatcher)
    (hookRepo : MainHookRepo) :
    ((hookRepo.RepoOwner ++ "/" ++ hookRepo.RepoName =
          gmem.event.ObjectAttributes.Target.PathWithNamespace ∧
        d.EventConfigured hookRepo HookEventType.HookEventPr = true ∧
        (hookRepo.IsRegular = false →
          hookRepo.Branch = gmem.event.ObjectAttributes.TargetBranch) ∧
        (hookRepo.IsRegular = true →
          (regexpMatchString d hookRepo.Branch
            gmem.event.ObjectAttributes.TargetBranch).1 = true)) →
      (gmem.Match d hookRepo).hookRepo
          = { hookRepo with Branch := gmem.event.ObjectAttributes.TargetBranch } ∧
        (gmem.event.ObjectAttributes.State ≠ "opened" →
          (gmem.Match d hookRepo).matched = false ∧ (gmem.Match d hookRepo).err = none ∧
            (gmem.Match d hookRepo).calls = []) ∧
        (gmem.event.ObjectAttributes.State = "opened" → ∀ cs err,
          gmem.diffFunc gmem.event hookRepo.CodehostID = (cs, .error err) →
          (gmem.Match d hookRepo).matched = false ∧ (gmem.Match d hookRepo).err = some err) ∧
        (gmem.event.ObjectAttributes.State = "opened" → ∀ cs changedFiles,
          gmem.diffFunc gmem.event hookRepo.CodehostID = (cs, .ok changedFiles) →
          d.MatchChanges { hookRepo with Branch := gmem.event.ObjectAttributes.TargetBranch }
            changedFiles = false →
          (gmem.Match d hookRepo).matched = false ∧ (gmem.Match d hookRepo).err = none)) ∧
    (¬ (hookRepo.RepoOwner ++ "/" ++ hookRepo.RepoName =
          gmem.event.ObjectAttributes.Target.PathWithNamespace ∧
        d.EventConfigured hookRepo HookEventType.HookEventPr = true ∧
        (hookRepo.IsRegular = false →
          hookRepo.Branch = gmem.event.ObjectAttributes.TargetBranch) ∧
        (hookRepo.IsRegular = true →
          (regexpMatchString d hookRepo.Branch
            gmem.event.ObjectAttributes.TargetBranch).1 = true)) →
      (gmem.Match d hookRepo).matched = false ∧ (gmem.Match d hookRepo).err = none ∧
        (gmem.Match d hookRepo).hookRepo = hookRepo) := by
  constructor
  · rintro ⟨h1, h2, h3, h4⟩
    rw [mergeMatch_of_filter_passes d gmem hookRepo h1 h2 h3 h4]
    refine ⟨?_, ?_, ?_, ?_⟩
    · split
      · rcases gmem.diffFunc gmem.event hookRepo.CodehostID with ⟨cs, err | files⟩ <;> rfl
      · rfl
    · intro hstate
      rw [if_neg hstate]
      exact ⟨rfl, rfl, rfl⟩
    · intro hstate cs err hdiff
      rw [if_pos hstate, hdiff]
      exact ⟨rfl, rfl⟩
    · intro hstate cs changedFiles hdiff hreject
      rw [if_pos hstate, hdiff]
      exact ⟨hreject, rfl⟩
  · intro hfail
    rw [mergeMatch_of_filter_fails d gmem hookRepo hfail]
    exact ⟨rfl, rfl, rfl⟩

/-- C12 on merge requests into `main` and rules of `acme/web`.  The rule with
the pattern `.*` is left with the branch `main` while `Match` returns false:
for a merged merge request, for an opened one whose `diffFunc` fails, and,
with the path filter `docs/`, for an opened one that changes `a.go` and
`b.go`.  The rule with the pattern `(`, which fails the branch filter, is
unchanged. -/
theorem C12_merge_match_false_mutates_rule_witness :
    sampleRegexRule.Branch = ".*" ∧
    (((sampleMergeMatcher "merged").Match sampleDeps sampleRegexRule).hookRepo.Branch = "main" ∧
      ((sampleMergeMatcher "merged").Match sampleDeps sampleRegexRule).matched = false ∧
      ((sampleMergeMatcher "merged").Match sampleDeps sampleRegexRule).err = none) ∧
    ((sampleFailingDiffMatcher.Match sampleDeps sampleRegexRule).hookRepo.Branch = "main" ∧
      (sampleFailingDiffMatcher.Match sampleDeps sampleRegexRule).matched = false ∧
      (sampleFailingDiffMatcher.Match sampleDeps sampleRegexRule).err
        = some "502 Bad Gateway") ∧
    (((sampleMergeMatcher "opened").Match sampleDeps sampleDocsRegexRule).hookRepo.Branch
        = "main" ∧
      ((sampleMergeMatcher "opened").Match sampleDeps sampleDocsRegexRule).matched = false ∧
      ((sampleMergeMatcher "opened").Match sampleDeps sampleDocsRegexRule).err = none) ∧
    (((sampleMergeMatcher "opened").Match sampleDeps sampleBadRegexRule).matched = false ∧
      ((sampleMergeMatcher "opened").Match sampleDeps sampleBadRegexRule).err = none ∧
      ((sampleMergeMatcher "opened").Match sampleDeps sampleBadRegexRule).hookRepo
        = sampleBadRegexRule) :=
  have hmerged := (C12_merge_match_false_mutates_rule sampleDeps (sampleMergeMatcher "merged")
    sampleRegexRule).1 (by decide)
  have hfails := (C12_merge_match_false_mutates_rule sampleDeps sampleFailingDiffMatcher
    sampleRegexRule).1 (by decide)
  have hdocs := (C12_merge_match_false_mutates_rule sampleDeps (sampleMergeMatcher "opened")
    sampleDocsRegexRule).1 (by decide)
  have hbad := (C12_merge_match_false_mutates_rule sampleDeps (sampleMergeMatcher "opened")
    sampleBadRegexRule).2 (by decide)
  ⟨rfl,
    ⟨congrArg MainHookRepo.Branch hmerged.1, (hmerged.2.1 (by decide)).1,
      (hmerged.2.1 (by decide)).2.1⟩,
    ⟨congrArg MainHookRepo.Branch hfails.1, hfails.2.2.1 rfl [] "502 Bad Gateway" rfl⟩,
    ⟨congrArg MainHookRepo.Branch hdocs.1,
      hdocs.2.2.2 rfl
        [Call.GetCodehostDetail 1, Call.NewClient "https://gitlab.example" "token",
          Call.ListChangedFiles (sampleMerge "opened")]
        ["a.go", "b.go"] rfl (by decide)⟩,
    hbad⟩

end Webhook
